import Mathlib

/-!
Shallow embedding of the agno-colosseo translation and grammar-analysis
service (src/agno-colosseo: models.py, agents.py, services.py).

Strings are modelled as lists of characters (`Str`).  The external
generation model (`OllamaClient.generate`) is modelled as an oracle of type
`Except Str Str`: `.ok r` is the raw response text, `.error e` is a raised
exception carrying message `e`.  For the translation fan-out, the oracle is
a function from the target language to the outcome of that language's
generation call; each language is dispatched exactly once, so this captures
the per-language outcomes of the concurrent calls (the aggregate is a full
join computed after all calls complete).

Python regular-expression scanning (`re.findall`, `re.finditer`) is
modelled by structurally recursive scanners over the character list, using
a fuel argument equal to the input length plus one; every recursive call
consumes at least one character, so the fuel never runs out.  The ASCII
behaviour of Python's character classes and string methods is modelled:
word characters are alphanumeric or underscore, whitespace is the six ASCII
space characters stripped by `str.strip`, and `str.lower` lowers ASCII
letters.  All texts appearing in the claims are ASCII.
-/

/-- Character-list strings. -/
abbrev Str := List Char

/-- Coerce a Lean string literal to the character-list model. -/
def chars (s : String) : Str := s.data

/-- Python whitespace (ASCII): space, tab, newline, carriage return,
vertical tab, form feed. -/
def isPySpace (c : Char) : Bool :=
  c.toNat == 32 || c.toNat == 9 || c.toNat == 10 || c.toNat == 13 ||
    c.toNat == 11 || c.toNat == 12

/-- Python `str.strip()`: remove leading and trailing whitespace. -/
def pyStrip (s : Str) : Str :=
  ((s.dropWhile isPySpace).reverse.dropWhile isPySpace).reverse

/-- Python `str.lower()` (ASCII). -/
def toLowerStr (s : Str) : Str := s.map Char.toLower

/-- Python `sep.join(xs)`. -/
def joinWith (sep : Str) : List Str → Str
  | [] => []
  | [x] => x
  | x :: y :: xs => x ++ sep ++ joinWith sep (y :: xs)

/-- Decimal rendering of a natural number, for f-string interpolation. -/
def natToStr (n : Nat) : Str := chars (toString n)

/-- Python regex `\w` (ASCII): alphanumeric or underscore. -/
def isWordChar (c : Char) : Bool := c.isAlphanum || c == '_'

/-- Python regex `[A-Z]`. -/
def isUpperAZ (c : Char) : Bool := 65 ≤ c.toNat && c.toNat ≤ 90

/-- Lookup in a Python dict modelled as an association list with unique
keys: return the value of the first entry with the given key. -/
def dictGet : List (Str × Str) → Str → Option Str
  | [], _ => none
  | e :: rest, k => if e.1 = k then some e.2 else dictGet rest k

/-- Python dict assignment `d[k] = v`: overwrite the existing entry in
place (keeping its position) or append a new entry. -/
def dictInsert (d : List (Str × Str)) (k v : Str) : List (Str × Str) :=
  if d.any (fun e => e.1 = k) then d.map (fun e => if e.1 = k then (k, v) else e)
  else d ++ [(k, v)]

/-- models.py `TranslationRequest` (field constraints are modelled by the
validators below). -/
structure TranslationRequest where
  sourceText : Str
  targetLanguages : List Str
deriving DecidableEq

/-- models.py `TranslationRequest.validate_source_text`. -/
def TranslationRequest.validate_source_text (v : Str) : Except Str Str :=
  if v.isEmpty || (pyStrip v).isEmpty then .error (chars "Source text cannot be empty")
  else .ok v

/-- models.py `TranslationRequest.validate_target_languages`. -/
def TranslationRequest.validate_target_languages (v : List Str) : Except Str (List Str) :=
  if v.isEmpty then .error (chars "At least one target language must be specified")
  else if 12 < v.length then .error (chars "Maximum 12 target languages allowed")
  else .ok v

/-- models.py `TranslationResult`. -/
structure TranslationResult where
  sourceText : Str
  translations : List (Str × Str)
  error : Option Str
deriving DecidableEq

/-- models.py `AnalysisRequest`. -/
structure AnalysisRequest where
  text : Str
  languageCode : Str
deriving DecidableEq

/-- models.py `GrammarComponent`. -/
structure GrammarComponent where
  text : Str
  componentType : Str
  color : Str
  startIndex : Nat
  endIndex : Nat
  features : List (Str × Str)
deriving DecidableEq

/-- models.py `AnalysisResult`. -/
structure AnalysisResult where
  originalText : Str
  languageCode : Str
  components : List GrammarComponent
  error : Option Str
deriving DecidableEq

/-- agents.py `TranslationAgent.translate`: the generation call's outcome is
`genResult`; an empty or whitespace-only response raises, a raised
exception is re-raised wrapped in a per-language message, and a successful
response is returned stripped. -/
def TranslationAgent.translate (genResult : Except Str Str) (target_language : Str) :
    Except Str Str :=
  match genResult with
  | .error e => .error (chars "Failed to translate to " ++ target_language ++ chars ": " ++ e)
  | .ok translated_text =>
    if translated_text.isEmpty || (pyStrip translated_text).isEmpty then
      .error (chars "Failed to translate to " ++ target_language ++ chars ": " ++
        chars "Translation returned empty result for language: " ++ target_language)
    else .ok (pyStrip translated_text)

/-- agents.py `AnalysisAgent.analyze`: same wrapping as the translation
agent, with the analysis-specific messages. -/
def AnalysisAgent.analyze (genResult : Except Str Str) (language_code : Str) :
    Except Str Str :=
  match genResult with
  | .error e =>
    .error (chars "Failed to analyze grammar for " ++ language_code ++ chars ": " ++ e)
  | .ok analysis_result =>
    if analysis_result.isEmpty || (pyStrip analysis_result).isEmpty then
      .error (chars "Failed to analyze grammar for " ++ language_code ++ chars ": " ++
        chars "Analysis returned empty result for language: " ++ language_code)
    else .ok (pyStrip analysis_result)

/-- services.py `TranslationService.validate_request`; `maxLen` is the
configured `MAX_TEXT_LENGTH` and `supported` the configured
`SUPPORTED_LANGUAGES`. -/
def TranslationService.validate_request (maxLen : Nat) (supported : List Str)
    (request : TranslationRequest) : Option Str :=
  if request.sourceText.isEmpty || (pyStrip request.sourceText).isEmpty then
    some (chars "Source text cannot be empty")
  else if maxLen < request.sourceText.length then
    some (chars "Source text exceeds maximum length of " ++ natToStr maxLen ++
      chars " characters")
  else if request.targetLanguages.isEmpty then
    some (chars "At least one target language must be specified")
  else
    let unsupported_languages :=
      request.targetLanguages.filter (fun lang => !supported.contains lang)
    if !unsupported_languages.isEmpty then
      some (chars "Unsupported language codes: " ++ joinWith (chars ", ") unsupported_languages)
    else none

/-- services.py `translate_to_language` (the per-language helper inside
`translate_text`): `(language, translatedText, none)` on success,
`(language, "", some errorMessage)` on failure. -/
def TranslationService.translate_to_language (gen : Str → Except Str Str)
    (target_language : Str) : Str × Str × Option Str :=
  match TranslationAgent.translate (gen target_language) target_language with
  | .ok translated_text => (target_language, translated_text, none)
  | .error e => (target_language, [], some e)

/-- services.py `translate_text`, result-processing loop: fill the
`translations` and `errors` dicts from the gathered per-language results in
request order. -/
def TranslationService.collectResults (results : List (Str × Str × Option Str)) :
    List (Str × Str) × List (Str × Str) :=
  results.foldl
    (fun acc res =>
      match res.2.2 with
      | some e => (acc.1, dictInsert acc.2 res.1 e)
      | none => (dictInsert acc.1 res.1 res.2.1, acc.2))
    ([], [])

/-- services.py `TranslationService.translate_text`.  Returns the result
together with the number of generation calls dispatched. -/
def TranslationService.translate_text (maxLen : Nat) (supported : List Str)
    (gen : Str → Except Str Str) (request : TranslationRequest) :
    TranslationResult × Nat :=
  match TranslationService.validate_request maxLen supported request with
  | some validation_error =>
    ({ sourceText := request.sourceText, translations := [], error := some validation_error }, 0)
  | none =>
    let results := request.targetLanguages.map (TranslationService.translate_to_language gen)
    let collected := TranslationService.collectResults results
    let translations := collected.1
    let errors := collected.2
    let overall_error : Option Str :=
      if !errors.isEmpty && translations.isEmpty then
        some (chars "All translations failed")
      else if !errors.isEmpty then
        some (chars "Translation failed for: " ++ joinWith (chars ", ") (errors.map Prod.fst))
      else none
    ({ sourceText := request.sourceText, translations := translations, error := overall_error },
      request.targetLanguages.length)

/-- The requested languages whose own generation call produced a usable
translation (statement-side view of the per-language outcomes). -/
def succLangs (gen : Str → Except Str Str) (targets : List Str) : List Str :=
  targets.filter (fun l => (TranslationAgent.translate (gen l) l).isOk)

/-- The requested languages whose own generation call failed. -/
def failLangs (gen : Str → Except Str Str) (targets : List Str) : List Str :=
  targets.filter (fun l => !(TranslationAgent.translate (gen l) l).isOk)

/-- The successful `(language, translatedText)` entries in request order. -/
def succEntries (gen : Str → Except Str Str) : List Str → List (Str × Str)
  | [] => []
  | l :: ls =>
    match TranslationAgent.translate (gen l) l with
    | .ok t => (l, t) :: succEntries gen ls
    | .error _ => succEntries gen ls

/-- The failed `(language, failureReason)` entries in request order. -/
def failEntries (gen : Str → Except Str Str) : List Str → List (Str × Str)
  | [] => []
  | l :: ls =>
    match TranslationAgent.translate (gen l) l with
    | .ok _ => failEntries gen ls
    | .error e => (l, e) :: failEntries gen ls

/-- services.py `AnalysisService.COMPONENT_COLORS`: the fixed component
type vocabulary with its display palette. -/
def COMPONENT_COLORS : List (Str × Str) :=
  [(chars "NOUN", chars "#FF6B6B"),
   (chars "VERB", chars "#4ECDC4"),
   (chars "ADJECTIVE", chars "#45B7D1"),
   (chars "ADVERB", chars "#96CEB4"),
   (chars "PREPOSITION", chars "#FFEAA7"),
   (chars "CONJUNCTION", chars "#DDA0DD"),
   (chars "PRONOUN", chars "#FFB6C1"),
   (chars "ARTICLE", chars "#98FB98"),
   (chars "DETERMINER", chars "#B0E0E6"),
   (chars "PARTICLE", chars "#F0E68C"),
   (chars "OTHER", chars "#D3D3D3")]

/-- Python `comp_type in COMPONENT_COLORS` (dict key membership). -/
def hasType (t : Str) : Bool := (dictGet COMPONENT_COLORS t).isSome

/-- Python `COMPONENT_COLORS.get(t, COMPONENT_COLORS['OTHER'])`. -/
def colorOf (t : Str) : Str :=
  (dictGet COMPONENT_COLORS t).getD ((dictGet COMPONENT_COLORS (chars "OTHER")).getD [])

/-- services.py `AnalysisService.validate_request`. -/
def AnalysisService.validate_request (maxLen : Nat) (supported : List Str)
    (request : AnalysisRequest) : Option Str :=
  if request.text.isEmpty || (pyStrip request.text).isEmpty then
    some (chars "Text cannot be empty")
  else if maxLen < request.text.length then
    some (chars "Text exceeds maximum length of " ++ natToStr maxLen ++ chars " characters")
  else if !supported.contains request.languageCode then
    some (chars "Unsupported language code: " ++ request.languageCode)
  else none

/-- Fueled scanner for `re.findall(r'(\w+)\s*[\|\(\:]\s*([A-Z]+)', analysis)`
(pattern 1 of `_parse_structured_analysis`).  At a word character the
greedy `\w+` takes the maximal word run; the match succeeds when optional
whitespace, one of `|`, `(`, `:`, optional whitespace and a nonempty
uppercase run follow (the character classes are pairwise disjoint, so
backtracking never yields further matches, and a failed attempt at a run
start also fails at every position inside the run).  Scanning resumes after
the match (`re.findall` returns non-overlapping matches left to right). -/
def findall1Go : Nat → Str → List (Str × Str)
  | 0, _ => []
  | _ + 1, [] => []
  | fuel + 1, c :: rest =>
    if isWordChar c then
      let run := c :: rest.takeWhile isWordChar
      let after := rest.dropWhile isWordChar
      match after.dropWhile isPySpace with
      | [] => findall1Go fuel after
      | d :: rest3 =>
        if d == '|' || d == '(' || d == ':' then
          let rest4 := rest3.dropWhile isPySpace
          let urun := rest4.takeWhile isUpperAZ
          if urun.isEmpty then findall1Go fuel after
          else (run, urun) :: findall1Go fuel (rest4.dropWhile isUpperAZ)
        else findall1Go fuel after
    else findall1Go fuel rest

/-- `re.findall` for pattern 1, with sufficient fuel. -/
def findall1 (analysis : Str) : List (Str × Str) := findall1Go (analysis.length + 1) analysis

/-- Fueled scanner for `re.findall(r'([A-Z]+)\s*[\:\-]\s*(\w+)', analysis)`
(pattern 2 of `_parse_structured_analysis`), with the same justification as
pattern 1: greedy `[A-Z]+`, optional whitespace, `:` or `-`, optional
whitespace, nonempty greedy `\w+`. -/
def findall2Go : Nat → Str → List (Str × Str)
  | 0, _ => []
  | _ + 1, [] => []
  | fuel + 1, c :: rest =>
    if isUpperAZ c then
      let run := c :: rest.takeWhile isUpperAZ
      let after := rest.dropWhile isUpperAZ
      match after.dropWhile isPySpace with
      | [] => findall2Go fuel after
      | d :: rest3 =>
        if d == ':' || d == '-' then
          let rest4 := rest3.dropWhile isPySpace
          let wrun := rest4.takeWhile isWordChar
          if wrun.isEmpty then findall2Go fuel after
          else (run, wrun) :: findall2Go fuel (rest4.dropWhile isWordChar)
        else findall2Go fuel after
    else findall2Go fuel rest

/-- `re.findall` for pattern 2, with sufficient fuel. -/
def findall2 (analysis : Str) : List (Str × Str) := findall2Go (analysis.length + 1) analysis

/-- services.py `AnalysisService._parse_structured_analysis`: apply all
pattern-1 matches, then all pattern-2 matches, keeping only types present
in the vocabulary, keyed by the lowercased word. -/
def AnalysisService.parse_structured_analysis (analysis : Str) : List (Str × Str) :=
  let m1 := (findall1 analysis).foldl
    (fun component_map wt =>
      if hasType wt.2 then dictInsert component_map (toLowerStr wt.1) wt.2 else component_map)
    []
  (findall2 analysis).foldl
    (fun component_map tw =>
      if hasType tw.1 then dictInsert component_map (toLowerStr tw.2) tw.1 else component_map)
    m1

/-- Fueled scanner for `re.finditer(r'\b\w+\b', text)`: the matches are
exactly the maximal word-character runs, with their character offsets. -/
def findTokensGo : Nat → Str → Nat → List (Nat × Str)
  | 0, _, _ => []
  | _ + 1, [], _ => []
  | fuel + 1, c :: rest, i =>
    if isWordChar c then
      let run := c :: rest.takeWhile isWordChar
      (i, run) :: findTokensGo fuel (rest.dropWhile isWordChar) (i + run.length)
    else findTokensGo fuel rest (i + 1)

/-- `re.finditer(r'\b\w+\b', text)` as a list of (start offset, matched
text) pairs, with sufficient fuel. -/
def findTokens (text : Str) : List (Nat × Str) := findTokensGo (text.length + 1) text 0

/-- services.py `AnalysisService._create_components_from_map`. -/
def AnalysisService.create_components_from_map (text : Str)
    (component_map : List (Str × Str)) : List GrammarComponent :=
  (findTokens text).map (fun m =>
    let component_type := (dictGet component_map (toLowerStr m.2)).getD (chars "OTHER")
    { text := m.2, componentType := component_type, color := colorOf component_type,
      startIndex := m.1, endIndex := m.1 + m.2.length, features := [] })

/-- The closed-class word lists of
`AnalysisService._create_components_from_text`. -/
def articles : List Str := [chars "a", chars "an", chars "the"]

/-- Determiner list of the fallback classifier. -/
def determiners : List Str :=
  [chars "this", chars "that", chars "these", chars "those", chars "my", chars "your",
   chars "his", chars "her", chars "its", chars "our", chars "their"]

/-- Pronoun list of the fallback classifier. -/
def pronouns : List Str :=
  [chars "i", chars "you", chars "he", chars "she", chars "it", chars "we", chars "they",
   chars "me", chars "him", chars "her", chars "us", chars "them"]

/-- Preposition list of the fallback classifier. -/
def prepositions : List Str :=
  [chars "in", chars "on", chars "at", chars "by", chars "for", chars "with", chars "from",
   chars "to", chars "of", chars "about", chars "into", chars "through"]

/-- Conjunction list of the fallback classifier. -/
def conjunctions : List Str :=
  [chars "and", chars "or", chars "but", chars "nor", chars "yet", chars "so", chars "for",
   chars "because", chars "although", chars "while"]

/-- The per-word type-detection chain in the loop body of
`AnalysisService._create_components_from_text`. -/
def classifyFallback (word : Str) : Str :=
  let word_lower := toLowerStr word
  if articles.contains word_lower then chars "ARTICLE"
  else if determiners.contains word_lower then chars "DETERMINER"
  else if pronouns.contains word_lower then chars "PRONOUN"
  else if prepositions.contains word_lower then chars "PREPOSITION"
  else if conjunctions.contains word_lower then chars "CONJUNCTION"
  else if (chars "ly").isSuffixOf word_lower then chars "ADVERB"
  else if (chars "ing").isSuffixOf word_lower || (chars "ed").isSuffixOf word_lower ||
      (chars "en").isSuffixOf word_lower then chars "VERB"
  else chars "NOUN"

/-- services.py `AnalysisService._create_components_from_text`. -/
def AnalysisService.create_components_from_text (text : Str) : List GrammarComponent :=
  (findTokens text).map (fun m =>
    let component_type := classifyFallback m.2
    { text := m.2, componentType := component_type, color := colorOf component_type,
      startIndex := m.1, endIndex := m.1 + m.2.length, features := [] })

/-- services.py `AnalysisService.parse_grammar_components`.  The Python
body wraps the strategy choice in try/except with the fallback on
exception; no operation in the try block raises for any input, so the
except branch is unreachable and the function is the plain strategy
choice. -/
def AnalysisService.parse_grammar_components (analysis : Str) (original_text : Str) :
    List GrammarComponent :=
  let component_map := AnalysisService.parse_structured_analysis analysis
  if !component_map.isEmpty then
    AnalysisService.create_components_from_map original_text component_map
  else
    AnalysisService.create_components_from_text original_text

/-- services.py `AnalysisService.analyze_grammar`.  Returns the result
together with the number of generation calls dispatched. -/
def AnalysisService.analyze_grammar (maxLen : Nat) (supported : List Str)
    (gen : Except Str Str) (request : AnalysisRequest) : AnalysisResult × Nat :=
  match AnalysisService.validate_request maxLen supported request with
  | some validation_error =>
    ({ originalText := request.text, languageCode := request.languageCode,
       components := [], error := some validation_error }, 0)
  | none =>
    match AnalysisAgent.analyze gen request.languageCode with
    | .ok analysis_result =>
      ({ originalText := request.text, languageCode := request.languageCode,
         components := AnalysisService.parse_grammar_components analysis_result request.text,
         error := none }, 1)
    | .error e =>
      ({ originalText := request.text, languageCode := request.languageCode,
         components := [], error := some (chars "Grammar analysis failed: " ++ e) }, 1)

/-- Specification-side predicate: position `p` starts a maximal run of
characters satisfying `pred` in `s` (the character at `p` satisfies `pred`
and the one before, if any, does not). -/
def isRunStart (pred : Char → Bool) (s : Str) (p : Nat) : Bool :=
  pred (s.getD p ' ') && (p == 0 || !pred (s.getD (p - 1) ' '))

/-- Specification-side tokenizer, written from the spec's words: the
left-to-right sequence of maximal `pred`-runs of `s`, each with its start
offset; a run is listed by the position where it starts. -/
def specTokensBy (pred : Char → Bool) (s : Str) : List (Nat × Str) :=
  ((List.range s.length).filter (fun p => isRunStart pred s p)).map
    (fun p => (p, (s.drop p).takeWhile pred))

/-- Python slice `s[a:b]` for `0 ≤ a ≤ b ≤ len(s)`. -/
def pySlice (s : Str) (a b : Nat) : Str := (s.drop a).take (b - a)


/-! ### Helper lemmas about the dict model -/

theorem dictGet_append (d t : List (Str × Str)) (k : Str) :
    dictGet (d ++ t) k = match dictGet d k with
      | some w => some w
      | none => dictGet t k := by
  induction d with
  | nil => simp [dictGet]
  | cons e rest ih =>
    by_cases h : e.1 = k
    · simp [dictGet, h]
    · simp [dictGet, h, ih]

theorem dictGet_eq_none_of_fresh (d : List (Str × Str)) (k : Str)
    (h : ∀ p ∈ d, p.1 ≠ k) : dictGet d k = none := by
  induction d with
  | nil => rfl
  | cons e rest ih =>
    have h1 : e.1 ≠ k := h e (by simp)
    simp only [dictGet, if_neg h1]
    exact ih fun p hp => h p (by simp [hp])

theorem dictInsert_fresh (d : List (Str × Str)) (k v : Str)
    (h : ∀ p ∈ d, p.1 ≠ k) : dictInsert d k v = d ++ [(k, v)] := by
  unfold dictInsert
  have hany : d.any (fun e => e.1 = k) = false := by
    simp only [List.any_eq_false, decide_eq_true_eq]
    exact h
  simp [hany]

theorem dictGet_isSome_of_mem (d : List (Str × Str)) (k : Str) (x : Str × Str)
    (hx : x ∈ d) (hk : x.1 = k) : ∃ w, dictGet d k = some w := by
  induction d with
  | nil => simp at hx
  | cons e rest ih =>
    by_cases he : e.1 = k
    · exact ⟨e.2, by simp [dictGet, he]⟩
    · rcases List.mem_cons.mp hx with h' | h'
      · exact absurd (h' ▸ hk) he
      · obtain ⟨w, hw⟩ := ih h'
        exact ⟨w, by simp [dictGet, he, hw]⟩

theorem dictGet_map_overwrite (k v k' : Str) (d : List (Str × Str)) :
    dictGet (d.map (fun e => if e.1 = k then (k, v) else e)) k' =
      if k' = k then (dictGet d k).map (fun _ => v)
      else dictGet d k' := by
  induction d with
  | nil => by_cases h : k' = k <;> simp [dictGet, h]
  | cons e rest ih =>
    by_cases he : e.1 = k
    · by_cases hk : k' = k
      · simp [dictGet, he, hk]
      · have hne : ¬ (k = k') := fun h => hk h.symm
        have hne2 : ¬ (e.1 = k') := by rw [he]; exact hne
        simp [dictGet, he, hk, hne, hne2, ih]
    · by_cases hk : k' = k
      · subst hk
        simp [dictGet, he, ih]
      · by_cases he' : e.1 = k'
        · simp [dictGet, he, he', hk]
        · simp [dictGet, he, he', ih, hk]

theorem dictGet_dictInsert (d : List (Str × Str)) (k v k' : Str) :
    dictGet (dictInsert d k v) k' = if k' = k then some v else dictGet d k' := by
  by_cases hany : d.any (fun e => e.1 = k) = true
  · obtain ⟨x, hx, hpx⟩ := List.any_eq_true.mp hany
    have hxk : x.1 = k := by simpa using hpx
    obtain ⟨w, hw⟩ := dictGet_isSome_of_mem d k x hx hxk
    unfold dictInsert
    rw [if_pos hany, dictGet_map_overwrite, hw]
    simp
  · have hany' : d.any (fun e => decide (e.1 = k)) = false := by
      cases h2 : d.any (fun e => decide (e.1 = k)) with
      | true => exact absurd h2 hany
      | false => rfl
    have hfresh : ∀ p ∈ d, p.1 ≠ k := by
      intro p hp
      have := List.any_eq_false.mp hany' p hp
      simpa using this
    rw [dictInsert_fresh d k v hfresh, dictGet_append]
    by_cases hk : k' = k
    · rw [dictGet_eq_none_of_fresh d k' (by rw [hk]; exact hfresh)]
      simp [dictGet, hk]
    · have hk2 : ¬ (k = k') := fun h => hk h.symm
      cases hd : dictGet d k' with
      | some w => simp [hk]
      | none => simp [dictGet, hk, hk2]

theorem mem_dictInsert (d : List (Str × Str)) (k v : Str) (p : Str × Str)
    (h : p ∈ dictInsert d k v) : p = (k, v) ∨ p ∈ d := by
  unfold dictInsert at h
  by_cases hany : d.any (fun e => e.1 = k) = true
  · rw [if_pos hany] at h
    obtain ⟨e, he, hfe⟩ := List.mem_map.mp h
    by_cases hk : e.1 = k
    · left; rw [← hfe]; simp [hk]
    · right; rw [← hfe]; simpa [hk] using he
  · rw [if_neg hany] at h
    rcases List.mem_append.mp h with h' | h'
    · right; exact h'
    · left; simpa using h'

/-! ### The fan-out result collection -/

theorem succLangs_add_failLangs_length (gen : Str → Except Str Str) (ts : List Str) :
    (succLangs gen ts).length + (failLangs gen ts).length = ts.length := by
  induction ts with
  | nil => rfl
  | cons l ls ih =>
    cases h : (TranslationAgent.translate (gen l) l).isOk with
    | true =>
      simp only [succLangs, failLangs, List.filter_cons, h] at ih ⊢
      simp only [Bool.not_true, if_neg, List.length_cons, if_pos, Bool.false_eq_true,
        not_false_eq_true]
      omega
    | false =>
      simp only [succLangs, failLangs, List.filter_cons, h] at ih ⊢
      simp only [Bool.not_false, if_neg, List.length_cons, if_pos, Bool.false_eq_true,
        not_false_eq_true]
      omega

theorem succEntries_map_fst (gen : Str → Except Str Str) (ts : List Str) :
    (succEntries gen ts).map Prod.fst = succLangs gen ts := by
  induction ts with
  | nil => rfl
  | cons l ls ih =>
    cases htr : TranslationAgent.translate (gen l) l with
    | ok t =>
      simp only [succEntries, succLangs, List.filter_cons, htr, Except.isOk, List.map_cons] at ih ⊢
      simpa [succLangs, Except.toBool] using ih
    | error e =>
      simp only [succEntries, succLangs, List.filter_cons, htr, Except.isOk] at ih ⊢
      simpa [succLangs, Except.toBool] using ih

theorem failEntries_map_fst (gen : Str → Except Str Str) (ts : List Str) :
    (failEntries gen ts).map Prod.fst = failLangs gen ts := by
  induction ts with
  | nil => rfl
  | cons l ls ih =>
    cases htr : TranslationAgent.translate (gen l) l with
    | ok t =>
      simp only [failEntries, failLangs, List.filter_cons, htr, Except.isOk] at ih ⊢
      simpa [failLangs, Except.toBool] using ih
    | error e =>
      simp only [failEntries, failLangs, List.filter_cons, htr, Except.isOk, List.map_cons] at ih ⊢
      simpa [failLangs, Except.toBool] using ih

theorem collectResults_go (gen : Str → Except Str Str) (ts : List Str)
    (accT accE : List (Str × Str))
    (hT : ∀ l ∈ ts, ∀ p ∈ accT, p.1 ≠ l) (hE : ∀ l ∈ ts, ∀ p ∈ accE, p.1 ≠ l)
    (hnd : ts.Nodup) :
    (ts.map (TranslationService.translate_to_language gen)).foldl
      (fun acc res =>
        match res.2.2 with
        | some e => (acc.1, dictInsert acc.2 res.1 e)
        | none => (dictInsert acc.1 res.1 res.2.1, acc.2)) (accT, accE)
      = (accT ++ succEntries gen ts, accE ++ failEntries gen ts) := by
  induction ts generalizing accT accE with
  | nil => simp [succEntries, failEntries]
  | cons l ls ih =>
    have hlnotin : l ∉ ls := (List.nodup_cons.mp hnd).1
    have hndtail : ls.Nodup := (List.nodup_cons.mp hnd).2
    cases htr : TranslationAgent.translate (gen l) l with
    | ok t =>
      have hstep : TranslationService.translate_to_language gen l = (l, t, none) := by
        simp [TranslationService.translate_to_language, htr]
      have hins : dictInsert accT l t = accT ++ [(l, t)] :=
        dictInsert_fresh _ _ _ (fun p hp => hT l (by simp) p hp)
      have hT2 : ∀ l' ∈ ls, ∀ p ∈ accT ++ [(l, t)], p.1 ≠ l' := by
        intro l' hl' p hp
        rcases List.mem_append.mp hp with h' | h'
        · exact hT l' (by simp [hl']) p h'
        · have : p = (l, t) := by simpa using h'
          rw [this]
          intro hll
          have h9 : l = l' := hll
          subst h9
          exact absurd hl' hlnotin
      have hE2 : ∀ l' ∈ ls, ∀ p ∈ accE, p.1 ≠ l' :=
        fun l' hl' p hp => hE l' (by simp [hl']) p hp
      simp only [List.map_cons, List.foldl_cons, hstep, hins]
      rw [ih (accT ++ [(l, t)]) accE hT2 hE2 hndtail]
      simp [succEntries, failEntries, htr]
    | error e =>
      have hstep : TranslationService.translate_to_language gen l = (l, [], some e) := by
        simp [TranslationService.translate_to_language, htr]
      have hins : dictInsert accE l e = accE ++ [(l, e)] :=
        dictInsert_fresh _ _ _ (fun p hp => hE l (by simp) p hp)
      have hE2 : ∀ l' ∈ ls, ∀ p ∈ accE ++ [(l, e)], p.1 ≠ l' := by
        intro l' hl' p hp
        rcases List.mem_append.mp hp with h' | h'
        · exact hE l' (by simp [hl']) p h'
        · have : p = (l, e) := by simpa using h'
          rw [this]
          intro hll
          have h9 : l = l' := hll
          subst h9
          exact absurd hl' hlnotin
      have hT2 : ∀ l' ∈ ls, ∀ p ∈ accT, p.1 ≠ l' :=
        fun l' hl' p hp => hT l' (by simp [hl']) p hp
      simp only [List.map_cons, List.foldl_cons, hstep, hins]
      rw [ih accT (accE ++ [(l, e)]) hT2 hE2 hndtail]
      simp [succEntries, failEntries, htr]

theorem collectResults_eq (gen : Str → Except Str Str) (ts : List Str) (hnd : ts.Nodup) :
    TranslationService.collectResults (ts.map (TranslationService.translate_to_language gen)) =
      (succEntries gen ts, failEntries gen ts) := by
  unfold TranslationService.collectResults
  simpa using collectResults_go gen ts [] [] (by simp) (by simp) hnd

theorem translate_text_eq (maxLen : Nat) (supported : List Str) (gen : Str → Except Str Str)
    (r : TranslationRequest)
    (hval : TranslationService.validate_request maxLen supported r = none)
    (hnd : r.targetLanguages.Nodup) :
    TranslationService.translate_text maxLen supported gen r =
      ({ sourceText := r.sourceText,
         translations := succEntries gen r.targetLanguages,
         error :=
           if !(failEntries gen r.targetLanguages).isEmpty &&
               (succEntries gen r.targetLanguages).isEmpty then
             some (chars "All translations failed")
           else if !(failEntries gen r.targetLanguages).isEmpty then
             some (chars "Translation failed for: " ++
               joinWith (chars ", ") ((failEntries gen r.targetLanguages).map Prod.fst))
           else none },
        r.targetLanguages.length) := by
  simp only [TranslationService.translate_text, hval]
  simp only [collectResults_eq gen r.targetLanguages hnd]

theorem validate_request_none_targets (maxLen : Nat) (supported : List Str)
    (r : TranslationRequest)
    (h : TranslationService.validate_request maxLen supported r = none) :
    r.targetLanguages ≠ [] := by
  intro hempty
  unfold TranslationService.validate_request at h
  rw [hempty] at h
  split_ifs at h
  simp_all

/-- C1: for a validated fan-out translation over distinct target languages:
if every per-language call fails the result has empty translations and
error "All translations failed"; if some but not all fail, translations
holds exactly the successful languages (none of the failed ones) and error
is "Translation failed for: " followed by the comma-joined failed codes;
if all succeed, translations covers all requested languages and error is
none. -/
theorem claim1_fanout_aggregation (maxLen : Nat) (supported : List Str)
    (gen : Str → Except Str Str) (r : TranslationRequest)
    (hval : TranslationService.validate_request maxLen supported r = none)
    (hnd : r.targetLanguages.Nodup) :
    (succLangs gen r.targetLanguages = [] →
      (TranslationService.translate_text maxLen supported gen r).1.translations = [] ∧
      (TranslationService.translate_text maxLen supported gen r).1.error =
        some (chars "All translations failed")) ∧
    (succLangs gen r.targetLanguages ≠ [] → failLangs gen r.targetLanguages ≠ [] →
      ((TranslationService.translate_text maxLen supported gen r).1.translations.map Prod.fst =
          succLangs gen r.targetLanguages ∧
       (TranslationService.translate_text maxLen supported gen r).1.translations.length +
          (failLangs gen r.targetLanguages).length = r.targetLanguages.length ∧
       (∀ l ∈ failLangs gen r.targetLanguages,
          l ∉ (TranslationService.translate_text maxLen supported gen r).1.translations.map
            Prod.fst) ∧
       (TranslationService.translate_text maxLen supported gen r).1.error =
          some (chars "Translation failed for: " ++
            joinWith (chars ", ") (failLangs gen r.targetLanguages)))) ∧
    (failLangs gen r.targetLanguages = [] →
      (TranslationService.translate_text maxLen supported gen r).1.translations.map Prod.fst =
        r.targetLanguages ∧
      (TranslationService.translate_text maxLen supported gen r).1.error = none) := by
  have hts := translate_text_eq maxLen supported gen r hval hnd
  rw [hts]
  refine ⟨?_, ?_, ?_⟩
  · intro hsucc
    have hsegone : succEntries gen r.targetLanguages = [] :=
      List.map_eq_nil_iff.mp (by rw [succEntries_map_fst]; exact hsucc)
    have htne := validate_request_none_targets maxLen supported r hval
    have hlen := succLangs_add_failLangs_length gen r.targetLanguages
    have hfne : failLangs gen r.targetLanguages ≠ [] := by
      intro hf
      rw [hsucc, hf] at hlen
      simp at hlen
      exact htne (List.length_eq_zero.mp hlen.symm)
    cases hfe : failEntries gen r.targetLanguages with
    | nil =>
      exact absurd (by rw [← failEntries_map_fst, hfe]; rfl) hfne
    | cons x xs => exact ⟨by simp [hsegone], by simp [hsegone, hfe]⟩
  · intro hsucc hfail
    have hse : succEntries gen r.targetLanguages ≠ [] := by
      intro h0
      exact hsucc (by rw [← succEntries_map_fst, h0]; rfl)
    have hfe2 : failEntries gen r.targetLanguages ≠ [] := by
      intro h0
      exact hfail (by rw [← failEntries_map_fst, h0]; rfl)
    refine ⟨by simpa using succEntries_map_fst gen r.targetLanguages, ?_, ?_, ?_⟩
    · have h1 : (succEntries gen r.targetLanguages).length =
          (succLangs gen r.targetLanguages).length := by
        rw [← succEntries_map_fst gen r.targetLanguages, List.length_map]
      simpa [h1] using succLangs_add_failLangs_length gen r.targetLanguages
    · intro l hl
      simp only [succEntries_map_fst]
      have hlf := List.mem_filter.mp hl
      intro hls
      have hlt := (List.mem_filter.mp hls).2
      have := hlf.2
      rw [hlt] at this
      simp at this
    · cases hfe : failEntries gen r.targetLanguages with
      | nil => exact absurd hfe hfe2
      | cons x xs =>
        cases hsee : succEntries gen r.targetLanguages with
        | nil => exact absurd hsee hse
        | cons y ys =>
          simp only []
          rw [← hfe, failEntries_map_fst]
          simp [hfe, hsee]
  · intro hfail
    have hfe0 : failEntries gen r.targetLanguages = [] :=
      List.map_eq_nil_iff.mp (by rw [failEntries_map_fst]; exact hfail)
    have hall : succLangs gen r.targetLanguages = r.targetLanguages := by
      apply List.filter_eq_self.mpr
      intro l hl
      by_contra hnot
      have hb : (TranslationAgent.translate (gen l) l).isOk = false := by
        cases hb2 : (TranslationAgent.translate (gen l) l).isOk with
        | true => exact absurd hb2 hnot
        | false => rfl
      have : l ∈ failLangs gen r.targetLanguages :=
        List.mem_filter.mpr ⟨hl, by simp [failLangs, hb]⟩
      rw [hfail] at this
      simp at this
    exact ⟨by simp [succEntries_map_fst, hall], by simp [hfe0]⟩

/-- Concrete supported-language list for witnesses. -/
def wSupp : List Str := [chars "es", chars "fr", chars "de"]

/-- Concrete generation oracle for witnesses: Spanish succeeds, the rest
fail. -/
def wGen : Str → Except Str Str :=
  fun l => if l = chars "es" then .ok (chars " Hola ") else .error (chars "boom")

/-- Concrete translation request for witnesses. -/
def wReq : TranslationRequest := ⟨chars "Hi", [chars "es", chars "fr", chars "de"]⟩

/-- Witness for C1 at a concrete mixed-outcome fan-out. -/
theorem claim1_witness :
    TranslationService.validate_request 1000 wSupp wReq = none ∧
    wReq.targetLanguages.Nodup ∧
    ((succLangs wGen wReq.targetLanguages = [] →
      (TranslationService.translate_text 1000 wSupp wGen wReq).1.translations = [] ∧
      (TranslationService.translate_text 1000 wSupp wGen wReq).1.error =
        some (chars "All translations failed")) ∧
    (succLangs wGen wReq.targetLanguages ≠ [] → failLangs wGen wReq.targetLanguages ≠ [] →
      ((TranslationService.translate_text 1000 wSupp wGen wReq).1.translations.map Prod.fst =
          succLangs wGen wReq.targetLanguages ∧
       (TranslationService.translate_text 1000 wSupp wGen wReq).1.translations.length +
          (failLangs wGen wReq.targetLanguages).length = wReq.targetLanguages.length ∧
       (∀ l ∈ failLangs wGen wReq.targetLanguages,
          l ∉ (TranslationService.translate_text 1000 wSupp wGen wReq).1.translations.map
            Prod.fst) ∧
       (TranslationService.translate_text 1000 wSupp wGen wReq).1.error =
          some (chars "Translation failed for: " ++
            joinWith (chars ", ") (failLangs wGen wReq.targetLanguages)))) ∧
    (failLangs wGen wReq.targetLanguages = [] →
      (TranslationService.translate_text 1000 wSupp wGen wReq).1.translations.map Prod.fst =
        wReq.targetLanguages ∧
      (TranslationService.translate_text 1000 wSupp wGen wReq).1.error = none)) :=
  ⟨by decide, by decide, claim1_fanout_aggregation 1000 wSupp wGen wReq (by decide) (by decide)⟩

/-- C3: on a validated request with distinct target languages, the
translation keys are a subset of the requested languages, and each
requested language lands in exactly one of the translations map and the
failed set, determined solely by whether its own call succeeded. -/
theorem claim3_translation_partition (maxLen : Nat) (supported : List Str)
    (gen : Str → Except Str Str) (r : TranslationRequest)
    (hval : TranslationService.validate_request maxLen supported r = none)
    (hnd : r.targetLanguages.Nodup) (l : Str) (hl : l ∈ r.targetLanguages) :
    ((TranslationService.translate_text maxLen supported gen r).1.translations.map Prod.fst ⊆
      r.targetLanguages) ∧
    ((l ∈ (TranslationService.translate_text maxLen supported gen r).1.translations.map
        Prod.fst) ↔ (TranslationAgent.translate (gen l) l).isOk = true) ∧
    ((l ∈ failLangs gen r.targetLanguages) ↔
      ¬ (TranslationAgent.translate (gen l) l).isOk = true) ∧
    (¬ (l ∈ (TranslationService.translate_text maxLen supported gen r).1.translations.map
        Prod.fst ∧ l ∈ failLangs gen r.targetLanguages)) ∧
    (l ∈ (TranslationService.translate_text maxLen supported gen r).1.translations.map
        Prod.fst ∨ l ∈ failLangs gen r.targetLanguages) := by
  rw [translate_text_eq maxLen supported gen r hval hnd]
  simp only [succEntries_map_fst]
  have hmemS : l ∈ succLangs gen r.targetLanguages ↔
      (TranslationAgent.translate (gen l) l).isOk = true := by
    constructor
    · intro h
      exact (List.mem_filter.mp h).2
    · intro h
      exact List.mem_filter.mpr ⟨hl, h⟩
  have hmemF : l ∈ failLangs gen r.targetLanguages ↔
      ¬ (TranslationAgent.translate (gen l) l).isOk = true := by
    constructor
    · intro h
      have := (List.mem_filter.mp h).2
      simp only [Bool.not_eq_true'] at this
      simp [this]
    · intro h
      refine List.mem_filter.mpr ⟨hl, ?_⟩
      cases hb : (TranslationAgent.translate (gen l) l).isOk with
      | true => exact absurd hb h
      | false => rfl
  refine ⟨fun x hx => (List.mem_filter.mp hx).1, hmemS, hmemF, ?_, ?_⟩
  · rintro ⟨h1, h2⟩
    exact (hmemF.mp h2) (hmemS.mp h1)
  · cases hb : (TranslationAgent.translate (gen l) l).isOk with
    | true => exact Or.inl (hmemS.mpr hb)
    | false => exact Or.inr (hmemF.mpr (by simp [hb]))

/-- Witness for C3 at a concrete mixed-outcome fan-out and the language
"fr". -/
theorem claim3_witness :
    TranslationService.validate_request 1000 wSupp wReq = none ∧
    wReq.targetLanguages.Nodup ∧ chars "fr" ∈ wReq.targetLanguages ∧
    (((TranslationService.translate_text 1000 wSupp wGen wReq).1.translations.map Prod.fst ⊆
      wReq.targetLanguages) ∧
    ((chars "fr" ∈ (TranslationService.translate_text 1000 wSupp wGen wReq).1.translations.map
        Prod.fst) ↔ (TranslationAgent.translate (wGen (chars "fr")) (chars "fr")).isOk = true) ∧
    ((chars "fr" ∈ failLangs wGen wReq.targetLanguages) ↔
      ¬ (TranslationAgent.translate (wGen (chars "fr")) (chars "fr")).isOk = true) ∧
    (¬ (chars "fr" ∈ (TranslationService.translate_text 1000 wSupp wGen wReq).1.translations.map
        Prod.fst ∧ chars "fr" ∈ failLangs wGen wReq.targetLanguages)) ∧
    (chars "fr" ∈ (TranslationService.translate_text 1000 wSupp wGen wReq).1.translations.map
        Prod.fst ∨ chars "fr" ∈ failLangs wGen wReq.targetLanguages)) :=
  ⟨by decide, by decide, by decide,
    claim3_translation_partition 1000 wSupp wGen wReq (by decide) (by decide) (chars "fr")
      (by decide)⟩

/-- C5: a request failing validation yields a result that carries exactly
the validation error with empty data, and no generation call is made
(the dispatched-call counter is zero), for both the translation and the
analysis service. -/
theorem claim5_validation_short_circuit
    (maxLen : Nat) (supported : List Str) (gen : Str → Except Str Str)
    (r : TranslationRequest) (e : Str)
    (maxLenA : Nat) (supportedA : List Str) (genA : Except Str Str)
    (ra : AnalysisRequest) (ea : Str)
    (hval : TranslationService.validate_request maxLen supported r = some e)
    (hvalA : AnalysisService.validate_request maxLenA supportedA ra = some ea) :
    TranslationService.translate_text maxLen supported gen r =
      ({ sourceText := r.sourceText, translations := [], error := some e }, 0) ∧
    AnalysisService.analyze_grammar maxLenA supportedA genA ra =
      ({ originalText := ra.text, languageCode := ra.languageCode,
         components := [], error := some ea }, 0) := by
  constructor
  · simp only [TranslationService.translate_text, hval]
  · simp only [AnalysisService.analyze_grammar, hvalA]

/-- Witness for C5 at concrete requests with empty text. -/
theorem claim5_witness :
    TranslationService.validate_request 1000 wSupp ⟨[], [chars "es"]⟩ =
      some (chars "Source text cannot be empty") ∧
    AnalysisService.validate_request 1000 wSupp ⟨[], chars "es"⟩ =
      some (chars "Text cannot be empty") ∧
    (TranslationService.translate_text 1000 wSupp wGen ⟨[], [chars "es"]⟩ =
      ({ sourceText := [], translations := [],
         error := some (chars "Source text cannot be empty") }, 0) ∧
     AnalysisService.analyze_grammar 1000 wSupp (.ok (chars "x")) ⟨[], chars "es"⟩ =
      ({ originalText := [], languageCode := chars "es", components := [],
         error := some (chars "Text cannot be empty") }, 0)) :=
  ⟨by decide, by decide,
    claim5_validation_short_circuit 1000 wSupp wGen ⟨[], [chars "es"]⟩ _ 1000 wSupp
      (.ok (chars "x")) ⟨[], chars "es"⟩ _ (by decide) (by decide)⟩

/-- C4: a target-language list that is non-empty but longer than the
configured maximum (12) is rejected by the request validator with a
non-empty error message, and the empty list is rejected as well. -/
theorem claim4_target_count_bounds (v : List Str) (h1 : v ≠ []) (h2 : 12 < v.length) :
    TranslationRequest.validate_target_languages v =
      .error (chars "Maximum 12 target languages allowed") ∧
    chars "Maximum 12 target languages allowed" ≠ ([] : Str) ∧
    TranslationRequest.validate_target_languages [] =
      .error (chars "At least one target language must be specified") := by
  refine ⟨?_, by decide, by rfl⟩
  unfold TranslationRequest.validate_target_languages
  have hne : ¬ (v.isEmpty = true) := by simp [List.isEmpty_iff, h1]
  rw [if_neg hne, if_pos h2]

/-- Witness for C4 at a thirteen-language list. -/
theorem claim4_witness :
    (List.replicate 13 (chars "en")) ≠ [] ∧ 12 < (List.replicate 13 (chars "en")).length ∧
    (TranslationRequest.validate_target_languages (List.replicate 13 (chars "en")) =
      .error (chars "Maximum 12 target languages allowed") ∧
     chars "Maximum 12 target languages allowed" ≠ ([] : Str) ∧
     TranslationRequest.validate_target_languages [] =
      .error (chars "At least one target language must be specified")) :=
  ⟨by decide, by decide, claim4_target_count_bounds _ (by decide) (by decide)⟩

/-! ### Stripping lemmas -/

theorem dropWhile_dropWhile (p : Char → Bool) (l : Str) :
    (l.dropWhile p).dropWhile p = l.dropWhile p := by
  induction l with
  | nil => rfl
  | cons c t ih =>
    by_cases hc : p c = true
    · simp [List.dropWhile_cons, hc, ih]
    · simp [List.dropWhile_cons, hc]

theorem dropWhile_head?_false (p : Char → Bool) (l : Str) (c : Char)
    (h : (l.dropWhile p).head? = some c) : p c = false := by
  induction l with
  | nil => simp at h
  | cons x t ih =>
    by_cases hx : p x = true
    · rw [List.dropWhile_cons, if_pos hx] at h
      exact ih h
    · rw [List.dropWhile_cons, if_neg hx] at h
      have hxc : x = c := by simpa using h
      subst hxc
      cases hb : p x with
      | true => exact absurd hb hx
      | false => rfl

theorem getLast?_dropWhile (p : Char → Bool) (w : Str)
    (h : w.dropWhile p ≠ []) : (w.dropWhile p).getLast? = w.getLast? := by
  induction w with
  | nil => simp at h
  | cons x t ih =>
    by_cases hx : p x = true
    · rw [List.dropWhile_cons, if_pos hx] at h ⊢
      have ht : t ≠ [] := by
        intro h0
        rw [h0] at h
        exact h rfl
      rw [ih h]
      cases t with
      | nil => exact absurd rfl ht
      | cons y u => simp [List.getLast?_cons_cons]
    · rw [List.dropWhile_cons, if_neg hx]

theorem pyStrip_dropWhile (s : Str) : (pyStrip s).dropWhile isPySpace = pyStrip s := by
  unfold pyStrip
  set u := s.dropWhile isPySpace with hu
  set v := u.reverse.dropWhile isPySpace with hv
  cases hvr : v.reverse with
  | nil => simp [hvr]
  | cons c t =>
    have hvne : v ≠ [] := by
      intro h0
      rw [h0] at hvr
      simp at hvr
    have hhead : v.reverse.head? = some c := by rw [hvr]; rfl
    have h1 : v.reverse.head? = v.getLast? := List.head?_reverse v
    have h2 : v.getLast? = u.reverse.getLast? := by
      rw [hv]
      exact getLast?_dropWhile isPySpace u.reverse (hv ▸ hvne)
    have h3 : u.reverse.getLast? = u.head? := List.getLast?_reverse u
    have h4 : u.head? = some c := by rw [← h3, ← h2, ← h1, hhead]
    have hc : isPySpace c = false := dropWhile_head?_false isPySpace s c (hu ▸ h4)
    rw [List.dropWhile_cons, if_neg (by simp [hc])]

theorem pyStrip_idem (s : Str) : pyStrip (pyStrip s) = pyStrip s := by
  conv_lhs => rw [pyStrip, pyStrip_dropWhile s]
  rw [pyStrip]
  set u := s.dropWhile isPySpace with hu
  set v := u.reverse.dropWhile isPySpace with hv
  rw [List.reverse_reverse]
  have : v.dropWhile isPySpace = v := by
    rw [hv]
    exact dropWhile_dropWhile isPySpace u.reverse
  rw [this]

theorem dictGet_succEntries (gen : Str → Except Str Str) (ts : List Str) (l t : Str)
    (hl : l ∈ ts) (htr : TranslationAgent.translate (gen l) l = .ok t) :
    dictGet (succEntries gen ts) l = some t := by
  induction ts with
  | nil => simp at hl
  | cons x ls ih =>
    by_cases hxl : x = l
    · subst hxl
      rw [show succEntries gen (x :: ls) = (x, t) :: succEntries gen ls by
        simp [succEntries, htr]]
      simp [dictGet]
    · have hl2 : l ∈ ls := by
        rcases List.mem_cons.mp hl with h' | h'
        · exact absurd h'.symm hxl
        · exact h'
      cases htr2 : TranslationAgent.translate (gen x) x with
      | ok t2 =>
        rw [show succEntries gen (x :: ls) = (x, t2) :: succEntries gen ls by
          simp [succEntries, htr2]]
        simp only [dictGet, if_neg hxl]
        exact ih hl2
      | error e2 =>
        rw [show succEntries gen (x :: ls) = succEntries gen ls by simp [succEntries, htr2]]
        exact ih hl2

theorem succEntries_values (gen : Str → Except Str Str) (ts : List Str) :
    ∀ p ∈ succEntries gen ts, ∃ s0, gen p.1 = .ok s0 ∧ pyStrip s0 ≠ [] ∧ p.2 = pyStrip s0 := by
  induction ts with
  | nil => simp [succEntries]
  | cons x ls ih =>
    intro p hp
    cases htr : TranslationAgent.translate (gen x) x with
    | ok t =>
      rw [show succEntries gen (x :: ls) = (x, t) :: succEntries gen ls by
        simp [succEntries, htr]] at hp
      rcases List.mem_cons.mp hp with h' | h'
      · subst h'
        cases hg : gen x with
        | error e =>
          rw [hg] at htr
          simp only [TranslationAgent.translate] at htr
          simp at htr
        | ok s0 =>
          rw [hg] at htr
          simp only [TranslationAgent.translate] at htr
          by_cases hcond : (s0.isEmpty || (pyStrip s0).isEmpty) = true
          · rw [if_pos hcond] at htr
            simp at htr
          · rw [if_neg hcond] at htr
            have hne : pyStrip s0 ≠ [] := by
              intro h0
              exact hcond (by simp [h0])
            refine ⟨s0, by simp [hg], hne, ?_⟩
            simpa using htr.symm
      · exact ih p h'
    | error e =>
      rw [show succEntries gen (x :: ls) = succEntries gen ls by simp [succEntries, htr]] at hp
      exact ih p hp

/-- C10: a language whose generation call returns a non-whitespace response
is stored in the translations map with exactly the stripped response; every
stored translation value is non-empty and is its own strip (it neither
starts nor ends with whitespace). -/
theorem claim10_translation_values (maxLen : Nat) (supported : List Str)
    (gen : Str → Except Str Str) (r : TranslationRequest)
    (hval : TranslationService.validate_request maxLen supported r = none)
    (hnd : r.targetLanguages.Nodup) (l s : Str)
    (hl : l ∈ r.targetLanguages) (hgen : gen l = .ok s) (hnonempty : pyStrip s ≠ []) :
    dictGet (TranslationService.translate_text maxLen supported gen r).1.translations l =
      some (pyStrip s) ∧
    (∀ p ∈ (TranslationService.translate_text maxLen supported gen r).1.translations,
      p.2 ≠ [] ∧ pyStrip p.2 = p.2) := by
  rw [translate_text_eq maxLen supported gen r hval hnd]
  have hsne : s ≠ [] := by
    intro h0
    rw [h0] at hnonempty
    exact hnonempty rfl
  have htr : TranslationAgent.translate (gen l) l = .ok (pyStrip s) := by
    rw [hgen]
    simp only [TranslationAgent.translate]
    rw [if_neg (by simp [hnonempty, hsne])]
  constructor
  · exact dictGet_succEntries gen r.targetLanguages l (pyStrip s) hl htr
  · intro p hp
    obtain ⟨s0, hg0, hne0, hval0⟩ := succEntries_values gen r.targetLanguages p hp
    rw [hval0]
    exact ⟨hne0, pyStrip_idem s0⟩

/-- Witness for C10 at the concrete fan-out where the Spanish call returns
" Hola ". -/
theorem claim10_witness :
    TranslationService.validate_request 1000 wSupp wReq = none ∧
    wReq.targetLanguages.Nodup ∧ chars "es" ∈ wReq.targetLanguages ∧
    wGen (chars "es") = Except.ok (chars " Hola ") ∧ pyStrip (chars " Hola ") ≠ [] ∧
    (dictGet (TranslationService.translate_text 1000 wSupp wGen wReq).1.translations
        (chars "es") = some (pyStrip (chars " Hola ")) ∧
     (∀ p ∈ (TranslationService.translate_text 1000 wSupp wGen wReq).1.translations,
        p.2 ≠ [] ∧ pyStrip p.2 = p.2)) :=
  ⟨by decide, by decide, by decide, by rfl, by decide,
    claim10_translation_values 1000 wSupp wGen wReq (by decide) (by decide) (chars "es")
      (chars " Hola ") (by decide) (by rfl) (by decide)⟩

/-- C6: a language whose generation call returns an empty or
whitespace-only string is a failure: it lands in the failed set and not in
the translations map, and the aggregate error is set; it is never recorded
as a success with empty text. -/
theorem claim6_empty_response_failure (maxLen : Nat) (supported : List Str)
    (gen : Str → Except Str Str) (r : TranslationRequest)
    (hval : TranslationService.validate_request maxLen supported r = none)
    (hnd : r.targetLanguages.Nodup) (l s : Str)
    (hl : l ∈ r.targetLanguages) (hgen : gen l = .ok s) (hempty : pyStrip s = []) :
    l ∉ (TranslationService.translate_text maxLen supported gen r).1.translations.map
      Prod.fst ∧
    l ∈ failLangs gen r.targetLanguages ∧
    (TranslationService.translate_text maxLen supported gen r).1.error ≠ none ∧
    (∀ p ∈ (TranslationService.translate_text maxLen supported gen r).1.translations,
      p.1 ≠ l) := by
  have hko : (TranslationAgent.translate (gen l) l).isOk = false := by
    rw [hgen]
    simp only [TranslationAgent.translate]
    rw [if_pos (by simp [hempty])]
    rfl
  rw [translate_text_eq maxLen supported gen r hval hnd]
  have hinF : l ∈ failLangs gen r.targetLanguages :=
    List.mem_filter.mpr ⟨hl, by simp [hko]⟩
  have hnotS : l ∉ succLangs gen r.targetLanguages := by
    intro hmem
    have := (List.mem_filter.mp hmem).2
    rw [hko] at this
    simp at this
  refine ⟨by simpa [succEntries_map_fst] using hnotS, hinF, ?_, ?_⟩
  · have hfne : failEntries gen r.targetLanguages ≠ [] := by
      intro h0
      have : failLangs gen r.targetLanguages = [] := by
        rw [← failEntries_map_fst, h0]
        rfl
      rw [this] at hinF
      simp at hinF
    cases hfe : failEntries gen r.targetLanguages with
    | nil => exact absurd hfe hfne
    | cons x xs =>
      cases hb : (succEntries gen r.targetLanguages).isEmpty with
      | true => simp [hfe, hb]
      | false => simp [hfe, hb]
  · intro p hp hpl
    apply hnotS
    rw [← succEntries_map_fst]
    rw [← hpl]
    exact List.mem_map.mpr ⟨p, hp, rfl⟩

/-- Concrete oracle for the C6 witness: the German call returns a
whitespace-only response, the others a usable one. -/
def wGenB : Str → Except Str Str :=
  fun l => if l = chars "de" then .ok (chars "  ") else .ok (chars "Hallo")

/-- Concrete request for the C6 witness. -/
def wReqB : TranslationRequest := ⟨chars "Hello", [chars "es", chars "de"]⟩

/-- Witness for C6: the German call returns a whitespace-only response. -/
theorem claim6_witness :
    TranslationService.validate_request 1000 wSupp wReqB = none ∧
    wReqB.targetLanguages.Nodup ∧ chars "de" ∈ wReqB.targetLanguages ∧
    wGenB (chars "de") = Except.ok (chars "  ") ∧ pyStrip (chars "  ") = [] ∧
    (chars "de" ∉ (TranslationService.translate_text 1000 wSupp wGenB wReqB).1.translations.map
      Prod.fst ∧
    chars "de" ∈ failLangs wGenB wReqB.targetLanguages ∧
    (TranslationService.translate_text 1000 wSupp wGenB wReqB).1.error ≠ none ∧
    (∀ p ∈ (TranslationService.translate_text 1000 wSupp wGenB wReqB).1.translations,
      p.1 ≠ chars "de")) :=
  ⟨by decide, by decide, by decide, by rfl, by decide,
    claim6_empty_response_failure 1000 wSupp wGenB wReqB (by decide) (by decide) (chars "de")
      (chars "  ") (by decide) (by rfl) (by decide)⟩

/-! ### Structured-analysis mapping -/

/-- The pattern-1 matches that pass the vocabulary check, as
`(lowercased word, type)` entries in match order. -/
def pat1Entries (analysis : Str) : List (Str × Str) :=
  (findall1 analysis).filterMap
    (fun m => if hasType m.2 then some (toLowerStr m.1, m.2) else none)

/-- The pattern-2 matches that pass the vocabulary check, as
`(lowercased word, type)` entries in match order. -/
def pat2Entries (analysis : Str) : List (Str × Str) :=
  (findall2 analysis).filterMap
    (fun m => if hasType m.1 then some (toLowerStr m.2, m.1) else none)

theorem foldl_insert_pat1 (ms : List (Str × Str)) (d0 : List (Str × Str)) :
    ms.foldl (fun component_map wt =>
      if hasType wt.2 then dictInsert component_map (toLowerStr wt.1) wt.2
      else component_map) d0
    = (ms.filterMap (fun m => if hasType m.2 then some (toLowerStr m.1, m.2) else none)).foldl
        (fun d e => dictInsert d e.1 e.2) d0 := by
  induction ms generalizing d0 with
  | nil => rfl
  | cons m ms ih =>
    by_cases hm : hasType m.2 = true
    · simp [List.foldl_cons, List.filterMap_cons, hm, ih]
    · simp [List.foldl_cons, List.filterMap_cons, hm, ih]

theorem foldl_insert_pat2 (ms : List (Str × Str)) (d0 : List (Str × Str)) :
    ms.foldl (fun component_map tw =>
      if hasType tw.1 then dictInsert component_map (toLowerStr tw.2) tw.1
      else component_map) d0
    = (ms.filterMap (fun m => if hasType m.1 then some (toLowerStr m.2, m.1) else none)).foldl
        (fun d e => dictInsert d e.1 e.2) d0 := by
  induction ms generalizing d0 with
  | nil => rfl
  | cons m ms ih =>
    by_cases hm : hasType m.1 = true
    · simp [List.foldl_cons, List.filterMap_cons, hm, ih]
    · simp [List.foldl_cons, List.filterMap_cons, hm, ih]

theorem dictGet_foldl_insert (es : List (Str × Str)) :
    ∀ (d : List (Str × Str)) (k : Str),
    dictGet (es.foldl (fun d e => dictInsert d e.1 e.2) d) k =
      match es.reverse.find? (fun e => decide (e.1 = k)) with
      | some e => some e.2
      | none => dictGet d k := by
  induction es with
  | nil =>
    intro d k
    simp
  | cons e es ih =>
    intro d k
    simp only [List.foldl_cons, List.reverse_cons]
    rw [ih, List.find?_append]
    cases hfind : es.reverse.find? (fun e => decide (e.1 = k)) with
    | some w => simp
    | none =>
      simp only [Option.none_or]
      by_cases hek : e.1 = k
      · simp [List.find?, hek, dictGet_dictInsert]
      · have hk2 : ¬ (k = e.1) := fun h => hek h.symm
        simp [List.find?, hek, dictGet_dictInsert, hk2]

theorem mem_foldl_insert_hasType (es : List (Str × Str)) :
    ∀ (d0 : List (Str × Str)), (∀ p ∈ d0, hasType p.2 = true) →
    (∀ e ∈ es, hasType e.2 = true) →
    ∀ p ∈ es.foldl (fun d e => dictInsert d e.1 e.2) d0, hasType p.2 = true := by
  induction es with
  | nil => intro d0 h0 _ p hp; exact h0 p hp
  | cons e es ih =>
    intro d0 h0 hes p hp
    refine ih (dictInsert d0 e.1 e.2) ?_ (fun x hx => hes x (by simp [hx])) p hp
    intro q hq
    rcases mem_dictInsert d0 e.1 e.2 q hq with h' | h'
    · rw [h']
      exact hes e (by simp)
    · exact h0 q h'

/-- C7: the word-to-type mapping built by Strategy A resolves each
lowercased word by taking the last vocabulary-accepted pattern-2 match if
one exists (pattern-2 overwrites pattern-1), otherwise the last
vocabulary-accepted pattern-1 match, and holds no entry otherwise; every
entry in the mapping carries a type from the fixed vocabulary. -/
theorem claim7_structured_mapping (analysis : Str) (k : Str) :
    (dictGet (AnalysisService.parse_structured_analysis analysis) k =
      match (pat2Entries analysis).reverse.find? (fun e => decide (e.1 = k)) with
      | some e => some e.2
      | none =>
        match (pat1Entries analysis).reverse.find? (fun e => decide (e.1 = k)) with
        | some e => some e.2
        | none => none) ∧
    (∀ p ∈ AnalysisService.parse_structured_analysis analysis, hasType p.2 = true) := by
  constructor
  · unfold AnalysisService.parse_structured_analysis
    rw [foldl_insert_pat1, foldl_insert_pat2]
    rw [dictGet_foldl_insert]
    cases h2 : (pat2Entries analysis).reverse.find? (fun e => decide (e.1 = k)) with
    | some e =>
      rw [show ((findall2 analysis).filterMap
        (fun m => if hasType m.1 then some (toLowerStr m.2, m.1) else none)).reverse.find?
          (fun e => decide (e.1 = k)) = some e from h2]
    | none =>
      rw [show ((findall2 analysis).filterMap
        (fun m => if hasType m.1 then some (toLowerStr m.2, m.1) else none)).reverse.find?
          (fun e => decide (e.1 = k)) = none from h2]
      rw [dictGet_foldl_insert]
      cases h1 : (pat1Entries analysis).reverse.find? (fun e => decide (e.1 = k)) with
      | some e =>
        rw [show ((findall1 analysis).filterMap
          (fun m => if hasType m.2 then some (toLowerStr m.1, m.2) else none)).reverse.find?
            (fun e => decide (e.1 = k)) = some e from h1]
      | none =>
        rw [show ((findall1 analysis).filterMap
          (fun m => if hasType m.2 then some (toLowerStr m.1, m.2) else none)).reverse.find?
            (fun e => decide (e.1 = k)) = none from h1]
        rfl
  · intro p hp
    unfold AnalysisService.parse_structured_analysis at hp
    rw [foldl_insert_pat1, foldl_insert_pat2] at hp
    refine mem_foldl_insert_hasType _ _ ?_ ?_ p hp
    · intro q hq
      refine mem_foldl_insert_hasType _ [] (by simp) ?_ q hq
      intro x hx
      obtain ⟨m, hm, hfm⟩ := List.mem_filterMap.mp hx
      by_cases hmt : hasType m.2 = true
      · rw [if_pos hmt] at hfm
        cases hfm
        exact hmt
      · rw [if_neg hmt] at hfm
        cases hfm
    · intro x hx
      obtain ⟨m, hm, hfm⟩ := List.mem_filterMap.mp hx
      by_cases hmt : hasType m.1 = true
      · rw [if_pos hmt] at hfm
        cases hfm
        exact hmt
      · rw [if_neg hmt] at hfm
        cases hfm

/-- C9: the annotator is total — it always returns the list produced by one
of the two strategies (any parsing failure falls back to Strategy B, which
is total); no analysis result carries both a non-null error and a non-empty
component list; and when the Generation Collaborator raises on a validated
request, the result has the error set and an empty component list, after a
single dispatched call. -/
theorem claim9_analysis_error_isolation (analysis original : Str)
    (maxLen : Nat) (supported : List Str) (genA genA2 : Except Str Str)
    (req req2 : AnalysisRequest) (e : Str)
    (hval : AnalysisService.validate_request maxLen supported req = none)
    (hgen : genA = .error e) :
    (AnalysisService.parse_grammar_components analysis original =
        AnalysisService.create_components_from_map original
          (AnalysisService.parse_structured_analysis analysis) ∨
      AnalysisService.parse_grammar_components analysis original =
        AnalysisService.create_components_from_text original) ∧
    ((AnalysisService.analyze_grammar maxLen supported genA2 req2).1.error = none ∨
      (AnalysisService.analyze_grammar maxLen supported genA2 req2).1.components = []) ∧
    ((AnalysisService.analyze_grammar maxLen supported genA req).1.components = [] ∧
     (AnalysisService.analyze_grammar maxLen supported genA req).1.error =
       some (chars "Grammar analysis failed: " ++
         (chars "Failed to analyze grammar for " ++ req.languageCode ++ chars ": " ++ e)) ∧
     (AnalysisService.analyze_grammar maxLen supported genA req).2 = 1) := by
  refine ⟨?_, ?_, ?_⟩
  · unfold AnalysisService.parse_grammar_components
    by_cases h : (AnalysisService.parse_structured_analysis analysis).isEmpty = true
    · right
      rw [if_neg (by simp [h])]
    · left
      rw [if_pos (by simp [h])]
  · unfold AnalysisService.analyze_grammar
    cases hv : AnalysisService.validate_request maxLen supported req2 with
    | some err => exact Or.inr rfl
    | none =>
      cases ha : AnalysisAgent.analyze genA2 req2.languageCode with
      | ok a => exact Or.inl rfl
      | error e2 => exact Or.inr rfl
  · rw [hgen]
    unfold AnalysisService.analyze_grammar
    rw [hval]
    simp [AnalysisAgent.analyze]

/-- Witness for C9 at a concrete connection failure. -/
theorem claim9_witness :
    AnalysisService.validate_request 1000 wSupp ⟨chars "Hi", chars "es"⟩ = none ∧
    (Except.error (chars "boom") : Except Str Str) = .error (chars "boom") ∧
    ((AnalysisService.parse_grammar_components (chars "x") (chars "ab") =
        AnalysisService.create_components_from_map (chars "ab")
          (AnalysisService.parse_structured_analysis (chars "x")) ∨
      AnalysisService.parse_grammar_components (chars "x") (chars "ab") =
        AnalysisService.create_components_from_text (chars "ab")) ∧
    ((AnalysisService.analyze_grammar 1000 wSupp (.ok (chars "y"))
        ⟨chars "Hi", chars "es"⟩).1.error = none ∨
      (AnalysisService.analyze_grammar 1000 wSupp (.ok (chars "y"))
        ⟨chars "Hi", chars "es"⟩).1.components = []) ∧
    ((AnalysisService.analyze_grammar 1000 wSupp (.error (chars "boom"))
        ⟨chars "Hi", chars "es"⟩).1.components = [] ∧
     (AnalysisService.analyze_grammar 1000 wSupp (.error (chars "boom"))
        ⟨chars "Hi", chars "es"⟩).1.error =
       some (chars "Grammar analysis failed: " ++
         (chars "Failed to analyze grammar for " ++ chars "es" ++ chars ": " ++
           chars "boom")) ∧
     (AnalysisService.analyze_grammar 1000 wSupp (.error (chars "boom"))
        ⟨chars "Hi", chars "es"⟩).2 = 1)) :=
  ⟨by decide, by rfl,
    claim9_analysis_error_isolation (chars "x") (chars "ab") 1000 wSupp
      (.error (chars "boom")) (.ok (chars "y")) ⟨chars "Hi", chars "es"⟩
      ⟨chars "Hi", chars "es"⟩ (chars "boom") (by decide) (by rfl)⟩

/-! ### Tokenizer refinement: the scanner produces exactly the maximal runs -/

theorem length_dropWhile_le (p : Char → Bool) (l : Str) :
    (l.dropWhile p).length ≤ l.length := by
  induction l with
  | nil => simp
  | cons c t ih =>
    by_cases hc : p c = true
    · rw [List.dropWhile_cons, if_pos hc]
      exact Nat.le_succ_of_le ih
    · rw [List.dropWhile_cons, if_neg hc]

theorem pred_getD_takeWhile (pred : Char → Bool) (l : Str) (m : Nat)
    (hm : m < (l.takeWhile pred).length) :
    pred ((l.takeWhile pred).getD m ' ') = true := by
  rw [List.getD_eq_getElem _ _ hm]
  exact List.mem_takeWhile_imp (List.getElem_mem hm)

theorem isRunStart_cons_succ (pred : Char → Bool) (c : Char) (rest : Str) (j : Nat)
    (hc : pred c = false) :
    isRunStart pred (c :: rest) (j + 1) = isRunStart pred rest j := by
  cases j with
  | zero => simp [isRunStart, hc]
  | succ m => simp [isRunStart]

theorem specTokensBy_cons_neg (pred : Char → Bool) (c : Char) (rest : Str)
    (hc : pred c = false) :
    specTokensBy pred (c :: rest) =
      (specTokensBy pred rest).map (fun q => (q.1 + 1, q.2)) := by
  unfold specTokensBy
  rw [show (c :: rest).length = rest.length + 1 from rfl, List.range_succ_eq_map,
    List.filter_cons]
  rw [if_neg (by simp [isRunStart, hc])]
  rw [List.filter_map]
  rw [List.filter_congr (fun j hj => by
    simpa [Function.comp] using isRunStart_cons_succ pred c rest j hc)]
  rw [List.map_map, List.map_map]
  refine List.map_congr_left ?_
  intro j hj
  simp [Function.comp, List.drop_succ_cons]

theorem specTokensBy_cons_pos (pred : Char → Bool) (c : Char) (rest : Str)
    (hc : pred c = true) :
    specTokensBy pred (c :: rest) =
      (0, c :: rest.takeWhile pred) ::
        (specTokensBy pred (rest.dropWhile pred)).map
          (fun q => (q.1 + ((rest.takeWhile pred).length + 1), q.2)) := by
  have hrest : rest = rest.takeWhile pred ++ rest.dropWhile pred :=
    (List.takeWhile_append_dropWhile pred rest).symm
  have hF1 : ∀ j, j ≤ (rest.takeWhile pred).length →
      pred ((c :: rest).getD j ' ') = true := by
    intro j hj
    cases j with
    | zero => simpa using hc
    | succ m =>
      rw [List.getD_cons_succ]
      have hm : m < (rest.takeWhile pred).length := by omega
      have h9 := List.getD_append (rest.takeWhile pred) (rest.dropWhile pred) ' ' m hm
      rw [← hrest] at h9
      rw [h9]
      exact pred_getD_takeWhile pred rest m hm
  have hG3 : ∀ q, rest.getD ((rest.takeWhile pred).length + q) ' ' =
      (rest.dropWhile pred).getD q ' ' := by
    intro q
    have h9 := List.getD_append_right (rest.takeWhile pred) (rest.dropWhile pred) ' '
      ((rest.takeWhile pred).length + q) (Nat.le_add_right _ _)
    rw [← hrest] at h9
    rw [h9]
    congr 1
    omega
  have hH : ∀ q, (c :: rest).getD ((rest.takeWhile pred).length + 1 + q) ' ' =
      (rest.dropWhile pred).getD q ' ' := by
    intro q
    rw [show (rest.takeWhile pred).length + 1 + q =
      ((rest.takeWhile pred).length + q) + 1 by omega]
    rw [List.getD_cons_succ]
    exact hG3 q
  have hF2 : (rest.dropWhile pred) ≠ [] →
      pred ((rest.dropWhile pred).getD 0 ' ') = false := by
    intro hne
    cases hdw : rest.dropWhile pred with
    | nil => exact absurd hdw hne
    | cons c2 t =>
      rw [List.getD_cons_zero]
      exact dropWhile_head?_false pred rest c2 (by rw [hdw]; rfl)
  have hlen : (c :: rest).length =
      ((rest.takeWhile pred).length + 1) + (rest.dropWhile pred).length := by
    have h9 := congrArg List.length hrest
    simp only [List.length_append] at h9
    simp only [List.length_cons]
    omega
  unfold specTokensBy
  rw [hlen, List.range_add, List.filter_append, List.map_append]
  have hpiece1 : ((List.range ((rest.takeWhile pred).length + 1)).filter
      (fun p => isRunStart pred (c :: rest) p)) = [0] := by
    rw [List.range_succ_eq_map, List.filter_cons,
      if_pos (by simp [isRunStart, hc]), List.filter_map]
    rw [show ((List.range (rest.takeWhile pred).length).filter
        ((fun p => isRunStart pred (c :: rest) p) ∘ Nat.succ)) = [] from by
      refine List.filter_eq_nil_iff.mpr ?_
      intro j hj
      have hjlen : j < (rest.takeWhile pred).length := List.mem_range.mp hj
      have hprev : pred ((c :: rest).getD j ' ') = true := hF1 j (by omega)
      have hz : ((j + 1 : Nat) == 0) = false := by simp
      have hsub : j + 1 - 1 = j := by omega
      simp only [Function.comp, isRunStart, Nat.succ_eq_add_one, hz, hsub, hprev,
        Bool.not_true, Bool.false_or, Bool.and_false]
      simp only [Bool.false_eq_true, not_false_eq_true]]
    rfl
  have hpiece2 : ∀ q ∈ List.range (rest.dropWhile pred).length,
      ((fun p => isRunStart pred (c :: rest) p) ∘
        (fun x => (rest.takeWhile pred).length + 1 + x)) q =
        isRunStart pred (rest.dropWhile pred) q := by
    intro q hq
    have hqlen : q < (rest.dropWhile pred).length := List.mem_range.mp hq
    simp only [Function.comp]
    cases q with
    | zero =>
      have hdne : rest.dropWhile pred ≠ [] := by
        intro h0
        rw [h0] at hqlen
        simp at hqlen
      have hz : ((rest.takeWhile pred).length + 1 + 0 == 0) = false := by simp
      have hzr : ((0 : Nat) == 0) = true := by simp
      have hprev : (c :: rest).getD ((rest.takeWhile pred).length + 1 + 0 - 1) ' ' =
          (c :: rest).getD ((rest.takeWhile pred).length) ' ' := rfl
      simp only [isRunStart, hH 0, hz, hzr, hprev, hF1 _ (Nat.le_refl _), Bool.not_true,
        Bool.false_or, Bool.and_false, Bool.true_or, Bool.and_true, hF2 hdne]
    | succ m =>
      have hprev : (c :: rest).getD ((rest.takeWhile pred).length + 1 + (m + 1) - 1) ' ' =
          (rest.dropWhile pred).getD m ' ' := by
        rw [show (rest.takeWhile pred).length + 1 + (m + 1) - 1 =
          (rest.takeWhile pred).length + 1 + m by omega]
        exact hH m
      have hz1 : ((rest.takeWhile pred).length + 1 + (m + 1) == 0) = false := by simp
      have hz2 : ((m + 1 : Nat) == 0) = false := by simp
      have hsub : m + 1 - 1 = m := by omega
      simp only [isRunStart, hH (m + 1), hz1, hz2, hsub, hprev, Bool.false_or]
  rw [hpiece1, List.filter_map, List.filter_congr hpiece2, List.map_map, List.map_map]
  rw [show List.map (fun p => (p, ((c :: rest).drop p).takeWhile pred)) [0] =
    [(0, c :: rest.takeWhile pred)] from by simp [List.takeWhile_cons, hc]]
  rw [List.singleton_append]
  refine congrArg (List.cons _) ?_
  refine List.map_congr_left ?_
  intro q hq
  simp only [Function.comp]
  have hdrop : (c :: rest).drop ((rest.takeWhile pred).length + 1 + q) =
      (rest.dropWhile pred).drop q := by
    rw [show (c :: rest) = (c :: rest.takeWhile pred) ++ rest.dropWhile pred from by
      rw [List.cons_append, ← hrest]]
    rw [show (rest.takeWhile pred).length + 1 + q =
      (c :: rest.takeWhile pred).length + q from by simp]
    exact List.drop_append q
  rw [hdrop, Nat.add_comm ((rest.takeWhile pred).length + 1) q]

theorem findTokensGo_spec : ∀ (fuel : Nat) (t : Str) (i : Nat), t.length < fuel →
    findTokensGo fuel t i = (specTokensBy isWordChar t).map (fun q => (q.1 + i, q.2)) := by
  intro fuel
  induction fuel with
  | zero => intro t i h; exact absurd h (Nat.not_lt_zero _)
  | succ fuel ih =>
    intro t i h
    cases t with
    | nil => simp [findTokensGo, specTokensBy]
    | cons c rest =>
      by_cases hc : isWordChar c = true
      · rw [show findTokensGo (fuel + 1) (c :: rest) i =
          (i, c :: rest.takeWhile isWordChar) ::
            findTokensGo fuel (rest.dropWhile isWordChar)
              (i + (c :: rest.takeWhile isWordChar).length) from by
          simp [findTokensGo, hc]]
        rw [ih (rest.dropWhile isWordChar) _ (by
          have h9 := length_dropWhile_le isWordChar rest
          simp only [List.length_cons] at h
          omega)]
        rw [specTokensBy_cons_pos isWordChar c rest hc]
        rw [List.map_cons, List.map_map]
        refine congrArg₂ List.cons (by simp) ?_
        refine List.map_congr_left ?_
        intro q hq
        simp only [Function.comp]
        refine congrArg₂ Prod.mk ?_ rfl
        simp only [List.length_cons]
        omega
      · have hcf : isWordChar c = false := by
          cases hb : isWordChar c with
          | true => exact absurd hb hc
          | false => rfl
        rw [show findTokensGo (fuel + 1) (c :: rest) i = findTokensGo fuel rest (i + 1) from by
          simp [findTokensGo, hcf]]
        rw [ih rest (i + 1) (by simp only [List.length_cons] at h; omega)]
        rw [specTokensBy_cons_neg isWordChar c rest hcf]
        rw [List.map_map]
        refine List.map_congr_left ?_
        intro q hq
        simp only [Function.comp]
        refine congrArg₂ Prod.mk ?_ rfl
        omega

theorem findTokens_eq (s : Str) : findTokens s = specTokensBy isWordChar s := by
  unfold findTokens
  rw [findTokensGo_spec (s.length + 1) s 0 (Nat.lt_succ_self _)]
  simp

theorem getD_drop (l : Str) : ∀ n k, (l.drop n).getD k ' ' = l.getD (n + k) ' ' := by
  induction l with
  | nil => intro n k; simp
  | cons c t ih =>
    intro n k
    cases n with
    | zero => simp
    | succ m =>
      rw [List.drop_succ_cons, ih m k, show m + 1 + k = (m + k) + 1 by omega,
        List.getD_cons_succ]

theorem mem_specTokensBy (pred : Char → Bool) (s : Str) (i : Nat) (w : Str)
    (h : (i, w) ∈ specTokensBy pred s) :
    i < s.length ∧ isRunStart pred s i = true ∧ w = (s.drop i).takeWhile pred := by
  unfold specTokensBy at h
  obtain ⟨j, hj, hje⟩ := List.mem_map.mp h
  have hj2 := List.mem_filter.mp hj
  have hji : j = i := congrArg Prod.fst hje
  subst hji
  have hw : w = (s.drop j).takeWhile pred := (congrArg Prod.snd hje).symm
  exact ⟨List.mem_range.mp hj2.1, by simpa using hj2.2, hw⟩

theorem specTokensBy_token_nonempty (pred : Char → Bool) (s : Str) (i : Nat) (w : Str)
    (h : (i, w) ∈ specTokensBy pred s) : w ≠ [] := by
  obtain ⟨hi, hrs, hw⟩ := mem_specTokensBy pred s i w h
  have hpred : pred (s.getD i ' ') = true := by
    simp only [isRunStart, Bool.and_eq_true] at hrs
    exact hrs.1
  cases hsd : s.drop i with
  | nil =>
    have h9 : s.length - i = 0 := by
      have := congrArg List.length hsd
      simpa using this
    omega
  | cons c t =>
    have hc : c = s.getD i ' ' := by
      have h9 := getD_drop s i 0
      rw [hsd] at h9
      simpa using h9
    rw [hw, hsd, List.takeWhile_cons, if_pos (by rw [hc]; exact hpred)]
    simp

theorem specTokensBy_token_bound (pred : Char → Bool) (s : Str) (i : Nat) (w : Str)
    (h : (i, w) ∈ specTokensBy pred s) :
    i + w.length ≤ s.length ∧ w = pySlice s i (i + w.length) := by
  obtain ⟨hi, _, hw⟩ := mem_specTokensBy pred s i w h
  have hpre : w <+: s.drop i := hw ▸ List.takeWhile_prefix pred
  have hlen : w.length ≤ (s.drop i).length := hpre.length_le
  rw [List.length_drop] at hlen
  constructor
  · omega
  · unfold pySlice
    rw [show i + w.length - i = w.length by omega]
    exact List.prefix_iff_eq_take.mp hpre

theorem specTokensBy_run_chars (pred : Char → Bool) (s : Str) (i : Nat) (w : Str)
    (h : (i, w) ∈ specTokensBy pred s) :
    ∀ k, k < w.length → pred (s.getD (i + k) ' ') = true := by
  obtain ⟨hi, _, hw⟩ := mem_specTokensBy pred s i w h
  intro k hk
  have hklen2 : k < ((s.drop i).takeWhile pred).length := by
    rw [← hw]
    exact hk
  rw [← getD_drop s i k]
  obtain ⟨tail, htail⟩ := List.takeWhile_prefix pred (l := s.drop i)
  rw [← htail, List.getD_append _ _ _ _ hklen2]
  exact pred_getD_takeWhile pred (s.drop i) k hklen2

theorem specTokensBy_pairwise (pred : Char → Bool) (s : Str) :
    (specTokensBy pred s).Pairwise
      (fun a b => a.1 < b.1 ∧ a.1 + a.2.length ≤ b.1) := by
  have hbase : (specTokensBy pred s).Pairwise (fun a b => a.1 < b.1) := by
    unfold specTokensBy
    rw [List.pairwise_map]
    exact ((List.pairwise_lt_range _).filter _)
  refine hbase.imp_of_mem ?_
  intro a b ha hb hlt
  refine ⟨hlt, ?_⟩
  by_contra hover
  have hover2 : b.1 < a.1 + a.2.length := by omega
  have hb2 := mem_specTokensBy pred s b.1 b.2 (by simpa using hb)
  have hrsb := hb2.2.1
  have hprevb : pred (s.getD (b.1 - 1) ' ') = true := by
    have hk : b.1 - 1 - a.1 < a.2.length := by omega
    have := specTokensBy_run_chars pred s a.1 a.2 (by simpa using ha) (b.1 - 1 - a.1) hk
    rw [show a.1 + (b.1 - 1 - a.1) = b.1 - 1 by omega] at this
    exact this
  unfold isRunStart at hrsb
  have hb0 : (b.1 == 0) = false := by
    have : b.1 ≠ 0 := by omega
    simpa using this
  rw [hb0, Bool.false_or, hprevb] at hrsb
  simp at hrsb

theorem parse_components_skeleton (analysis source : Str) :
    (AnalysisService.parse_grammar_components analysis source).map
      (fun comp => (comp.startIndex, comp.text)) = specTokensBy isWordChar source ∧
    ∀ comp ∈ AnalysisService.parse_grammar_components analysis source,
      comp.endIndex = comp.startIndex + comp.text.length := by
  unfold AnalysisService.parse_grammar_components
  by_cases hm : (AnalysisService.parse_structured_analysis analysis).isEmpty = true
  · rw [if_neg (by simp [hm])]
    unfold AnalysisService.create_components_from_text
    constructor
    · rw [List.map_map, ← findTokens_eq]
      refine (List.map_congr_left ?_).trans (List.map_id _)
      intro m hm2
      rfl
    · intro comp hcomp
      obtain ⟨m, _, hme⟩ := List.mem_map.mp hcomp
      rw [← hme]
  · rw [if_pos (by simp at hm; simp [hm])]
    unfold AnalysisService.create_components_from_map
    constructor
    · rw [List.map_map, ← findTokens_eq]
      refine (List.map_congr_left ?_).trans (List.map_id _)
      intro m hm2
      rfl
    · intro comp hcomp
      obtain ⟨m, _, hme⟩ := List.mem_map.mp hcomp
      rw [← hme]

/-- C2 (amended: a token is a maximal run of word characters, that is
alphanumeric or underscore — Python `\w` — rather than alphanumeric only):
for every analysis text and source text, each produced span satisfies
`startIndex < endIndex ≤ len(sourceText)`, covers exactly the slice
`sourceText[startIndex:endIndex]` with `endIndex = startIndex + len(text)`,
the spans are strictly ascending and non-overlapping, and the ordered
`(startIndex, text)` sequence is exactly the left-to-right sequence of
maximal word-character tokens of the source text. -/
theorem claim2_span_tokens (analysis source : Str) :
    (∀ comp ∈ AnalysisService.parse_grammar_components analysis source,
      comp.startIndex < comp.endIndex ∧ comp.endIndex ≤ source.length ∧
      comp.endIndex = comp.startIndex + comp.text.length ∧
      comp.text = pySlice source comp.startIndex comp.endIndex) ∧
    (AnalysisService.parse_grammar_components analysis source).Pairwise
      (fun a b => a.startIndex < b.startIndex ∧ a.endIndex ≤ b.startIndex) ∧
    (AnalysisService.parse_grammar_components analysis source).map
      (fun comp => (comp.startIndex, comp.text)) = specTokensBy isWordChar source := by
  obtain ⟨hskel, hend⟩ := parse_components_skeleton analysis source
  refine ⟨?_, ?_, hskel⟩
  · intro comp hcomp
    have hmem : (comp.startIndex, comp.text) ∈ specTokensBy isWordChar source := by
      rw [← hskel]
      exact List.mem_map.mpr ⟨comp, hcomp, rfl⟩
    have hne := specTokensBy_token_nonempty isWordChar source _ _ hmem
    have hbd := specTokensBy_token_bound isWordChar source _ _ hmem
    have hlen0 : 0 < comp.text.length := List.length_pos.mpr hne
    refine ⟨?_, ?_, hend comp hcomp, ?_⟩
    · rw [hend comp hcomp]
      omega
    · rw [hend comp hcomp]
      exact hbd.1
    · rw [hend comp hcomp]
      exact hbd.2
  · have hpw : ((AnalysisService.parse_grammar_components analysis source).map
        (fun comp => (comp.startIndex, comp.text))).Pairwise
        (fun a b => a.1 < b.1 ∧ a.1 + a.2.length ≤ b.1) := by
      rw [hskel]
      exact specTokensBy_pairwise isWordChar source
    rw [List.pairwise_map] at hpw
    refine hpw.imp_of_mem ?_
    intro a b ha hb hab
    exact ⟨hab.1, by rw [hend a ha]; exact hab.2⟩

/-- C2 counterexample: on the source text "a_b" the annotator emits a
single span covering "a_b" (the regex `\w` token), which differs from the
two maximal alphanumeric tokens "a" and "b"; so the ordered sequence of
covered substrings does not equal the sequence of maximal alphanumeric
tokens, refuting the claim as stated. -/
theorem claim2_counterexample :
    (AnalysisService.parse_grammar_components (chars "x") (chars "a_b")).map
      (fun comp => (comp.startIndex, comp.text)) = [(0, chars "a_b")] ∧
    specTokensBy Char.isAlphanum (chars "a_b") = [(0, chars "a"), (2, chars "b")] ∧
    ¬ ((AnalysisService.parse_grammar_components (chars "x") (chars "a_b")).map
        (fun comp => (comp.startIndex, comp.text)) =
      specTokensBy Char.isAlphanum (chars "a_b")) := by
  refine ⟨by decide, by decide, by decide⟩

/-- The source text of the fallback scenario. -/
def fallbackSentence : Str := chars "The quick brown fox jumps over the lazy dog"

/-- C8 counterexample: with an analysis text containing no structured
pattern, the fallback classifies "over" as NOUN, not PREPOSITION —
"over" is not in the code's preposition list and no suffix rule applies. -/
theorem claim8_fallback_counterexample :
    AnalysisService.parse_structured_analysis (chars "x") = [] ∧
    ((AnalysisService.parse_grammar_components (chars "x") fallbackSentence).map
      (fun comp => (comp.text, comp.componentType)))[5]? =
        some (chars "over", chars "NOUN") ∧
    chars "NOUN" ≠ chars "PREPOSITION" ∧
    prepositions.contains (toLowerStr (chars "over")) = false := by
  refine ⟨by decide, by decide, by decide, by decide⟩

/-- C8 (amended: "over", absent from the closed-class lists and matching no
suffix rule, defaults to NOUN): when Strategy A's mapping is empty the
annotator uses Strategy B, which classifies by closed-class membership in
priority order article > determiner > pronoun > preposition > conjunction,
then suffix "ly" → ADVERB, then "ing"/"ed"/"en" → VERB, else NOUN; on the
scenario sentence, "The"/"the" → ARTICLE, "jumps" → NOUN, "over" → NOUN. -/
theorem claim8_fallback_classification (analysis source w : Str)
    (h : AnalysisService.parse_structured_analysis analysis = []) :
    (AnalysisService.parse_grammar_components analysis source =
      AnalysisService.create_components_from_text source) ∧
    ((AnalysisService.parse_grammar_components analysis fallbackSentence).map
      (fun comp => (comp.text, comp.componentType)) =
      [(chars "The", chars "ARTICLE"), (chars "quick", chars "NOUN"),
       (chars "brown", chars "NOUN"), (chars "fox", chars "NOUN"),
       (chars "jumps", chars "NOUN"), (chars "over", chars "NOUN"),
       (chars "the", chars "ARTICLE"), (chars "lazy", chars "NOUN"),
       (chars "dog", chars "NOUN")]) ∧
    (articles.contains (toLowerStr w) = true → classifyFallback w = chars "ARTICLE") ∧
    (articles.contains (toLowerStr w) = false → determiners.contains (toLowerStr w) = true →
      classifyFallback w = chars "DETERMINER") ∧
    (articles.contains (toLowerStr w) = false → determiners.contains (toLowerStr w) = false →
      pronouns.contains (toLowerStr w) = true → classifyFallback w = chars "PRONOUN") ∧
    (articles.contains (toLowerStr w) = false → determiners.contains (toLowerStr w) = false →
      pronouns.contains (toLowerStr w) = false → prepositions.contains (toLowerStr w) = true →
      classifyFallback w = chars "PREPOSITION") ∧
    (articles.contains (toLowerStr w) = false → determiners.contains (toLowerStr w) = false →
      pronouns.contains (toLowerStr w) = false → prepositions.contains (toLowerStr w) = false →
      conjunctions.contains (toLowerStr w) = true →
      classifyFallback w = chars "CONJUNCTION") ∧
    (articles.contains (toLowerStr w) = false → determiners.contains (toLowerStr w) = false →
      pronouns.contains (toLowerStr w) = false → prepositions.contains (toLowerStr w) = false →
      conjunctions.contains (toLowerStr w) = false →
      (chars "ly").isSuffixOf (toLowerStr w) = true → classifyFallback w = chars "ADVERB") ∧
    (articles.contains (toLowerStr w) = false → determiners.contains (toLowerStr w) = false →
      pronouns.contains (toLowerStr w) = false → prepositions.contains (toLowerStr w) = false →
      conjunctions.contains (toLowerStr w) = false →
      (chars "ly").isSuffixOf (toLowerStr w) = false →
      ((chars "ing").isSuffixOf (toLowerStr w) = true ∨
        (chars "ed").isSuffixOf (toLowerStr w) = true ∨
        (chars "en").isSuffixOf (toLowerStr w) = true) →
      classifyFallback w = chars "VERB") ∧
    (articles.contains (toLowerStr w) = false → determiners.contains (toLowerStr w) = false →
      pronouns.contains (toLowerStr w) = false → prepositions.contains (toLowerStr w) = false →
      conjunctions.contains (toLowerStr w) = false →
      (chars "ly").isSuffixOf (toLowerStr w) = false →
      (chars "ing").isSuffixOf (toLowerStr w) = false →
      (chars "ed").isSuffixOf (toLowerStr w) = false →
      (chars "en").isSuffixOf (toLowerStr w) = false →
      classifyFallback w = chars "NOUN") := by
  have hfall : ∀ src : Str, AnalysisService.parse_grammar_components analysis src =
      AnalysisService.create_components_from_text src := by
    intro src
    unfold AnalysisService.parse_grammar_components
    rw [h]
    rfl
  refine ⟨hfall source, by rw [hfall fallbackSentence]; decide, ?_, ?_, ?_, ?_, ?_, ?_, ?_, ?_⟩
  · intro h1
    have h1a : toLowerStr w ∈ articles := by simpa using h1
    simp [classifyFallback, h1a]
  · intro h1 h2
    have h1a : toLowerStr w ∉ articles := by simpa using h1
    have h2a : toLowerStr w ∈ determiners := by simpa using h2
    simp [classifyFallback, h1a, h2a]
  · intro h1 h2 h3
    have h1a : toLowerStr w ∉ articles := by simpa using h1
    have h2a : toLowerStr w ∉ determiners := by simpa using h2
    have h3a : toLowerStr w ∈ pronouns := by simpa using h3
    simp [classifyFallback, h1a, h2a, h3a]
  · intro h1 h2 h3 h4
    have h1a : toLowerStr w ∉ articles := by simpa using h1
    have h2a : toLowerStr w ∉ determiners := by simpa using h2
    have h3a : toLowerStr w ∉ pronouns := by simpa using h3
    have h4a : toLowerStr w ∈ prepositions := by simpa using h4
    simp [classifyFallback, h1a, h2a, h3a, h4a]
  · intro h1 h2 h3 h4 h5
    have h1a : toLowerStr w ∉ articles := by simpa using h1
    have h2a : toLowerStr w ∉ determiners := by simpa using h2
    have h3a : toLowerStr w ∉ pronouns := by simpa using h3
    have h4a : toLowerStr w ∉ prepositions := by simpa using h4
    have h5a : toLowerStr w ∈ conjunctions := by simpa using h5
    simp [classifyFallback, h1a, h2a, h3a, h4a, h5a]
  · intro h1 h2 h3 h4 h5 h6
    have h1a : toLowerStr w ∉ articles := by simpa using h1
    have h2a : toLowerStr w ∉ determiners := by simpa using h2
    have h3a : toLowerStr w ∉ pronouns := by simpa using h3
    have h4a : toLowerStr w ∉ prepositions := by simpa using h4
    have h5a : toLowerStr w ∉ conjunctions := by simpa using h5
    have h6a : chars "ly" <:+ toLowerStr w := by simpa using h6
    simp [classifyFallback, h1a, h2a, h3a, h4a, h5a, h6a]
  · intro h1 h2 h3 h4 h5 h6 h7
    have h1a : toLowerStr w ∉ articles := by simpa using h1
    have h2a : toLowerStr w ∉ determiners := by simpa using h2
    have h3a : toLowerStr w ∉ pronouns := by simpa using h3
    have h4a : toLowerStr w ∉ prepositions := by simpa using h4
    have h5a : toLowerStr w ∉ conjunctions := by simpa using h5
    have h6a : ¬ (chars "ly" <:+ toLowerStr w) := by
      intro hcon
      have h99 : List.isSuffixOf (chars "ly") (toLowerStr w) = true := by simpa using hcon
      rw [h6] at h99
      cases h99
    rcases h7 with h7 | h7 | h7
    · have h7a : chars "ing" <:+ toLowerStr w := by simpa using h7
      simp [classifyFallback, h1a, h2a, h3a, h4a, h5a, h6a, h7a]
    · have h7a : chars "ed" <:+ toLowerStr w := by simpa using h7
      simp [classifyFallback, h1a, h2a, h3a, h4a, h5a, h6a, h7a]
    · have h7a : chars "en" <:+ toLowerStr w := by simpa using h7
      simp [classifyFallback, h1a, h2a, h3a, h4a, h5a, h6a, h7a]
  · intro h1 h2 h3 h4 h5 h6 h7 h8 h9
    have h1a : toLowerStr w ∉ articles := by simpa using h1
    have h2a : toLowerStr w ∉ determiners := by simpa using h2
    have h3a : toLowerStr w ∉ pronouns := by simpa using h3
    have h4a : toLowerStr w ∉ prepositions := by simpa using h4
    have h5a : toLowerStr w ∉ conjunctions := by simpa using h5
    have h6a : ¬ (chars "ly" <:+ toLowerStr w) := by
      intro hcon
      have h99 : List.isSuffixOf (chars "ly") (toLowerStr w) = true := by simpa using hcon
      rw [h6] at h99
      cases h99
    have h7a : ¬ (chars "ing" <:+ toLowerStr w) := by
      intro hcon
      have h99 : List.isSuffixOf (chars "ing") (toLowerStr w) = true := by simpa using hcon
      rw [h7] at h99
      cases h99
    have h8a : ¬ (chars "ed" <:+ toLowerStr w) := by
      intro hcon
      have h99 : List.isSuffixOf (chars "ed") (toLowerStr w) = true := by simpa using hcon
      rw [h8] at h99
      cases h99
    have h9a : ¬ (chars "en" <:+ toLowerStr w) := by
      intro hcon
      have h99 : List.isSuffixOf (chars "en") (toLowerStr w) = true := by simpa using hcon
      rw [h9] at h99
      cases h99
    simp [classifyFallback, h1a, h2a, h3a, h4a, h5a, h6a, h7a, h8a, h9a]

/-- Witness for C8 at the analysis text "x" (no structured pattern) and the
word "The". -/
theorem claim8_witness :
    AnalysisService.parse_structured_analysis (chars "x") = [] ∧
    ((AnalysisService.parse_grammar_components (chars "x") (chars "Hello") =
      AnalysisService.create_components_from_text (chars "Hello")) ∧
    ((AnalysisService.parse_grammar_components (chars "x") fallbackSentence).map
      (fun comp => (comp.text, comp.componentType)) =
      [(chars "The", chars "ARTICLE"), (chars "quick", chars "NOUN"),
       (chars "brown", chars "NOUN"), (chars "fox", chars "NOUN"),
       (chars "jumps", chars "NOUN"), (chars "over", chars "NOUN"),
       (chars "the", chars "ARTICLE"), (chars "lazy", chars "NOUN"),
       (chars "dog", chars "NOUN")]) ∧
    (articles.contains (toLowerStr (chars "The")) = true →
      classifyFallback (chars "The") = chars "ARTICLE") ∧
    (articles.contains (toLowerStr (chars "The")) = false →
      determiners.contains (toLowerStr (chars "The")) = true →
      classifyFallback (chars "The") = chars "DETERMINER") ∧
    (articles.contains (toLowerStr (chars "The")) = false →
      determiners.contains (toLowerStr (chars "The")) = false →
      pronouns.contains (toLowerStr (chars "The")) = true →
      classifyFallback (chars "The") = chars "PRONOUN") ∧
    (articles.contains (toLowerStr (chars "The")) = false →
      determiners.contains (toLowerStr (chars "The")) = false →
      pronouns.contains (toLowerStr (chars "The")) = false →
      prepositions.contains (toLowerStr (chars "The")) = true →
      classifyFallback (chars "The") = chars "PREPOSITION") ∧
    (articles.contains (toLowerStr (chars "The")) = false →
      determiners.contains (toLowerStr (chars "The")) = false →
      pronouns.contains (toLowerStr (chars "The")) = false →
      prepositions.contains (toLowerStr (chars "The")) = false →
      conjunctions.contains (toLowerStr (chars "The")) = true →
      classifyFallback (chars "The") = chars "CONJUNCTION") ∧
    (articles.contains (toLowerStr (chars "The")) = false →
      determiners.contains (toLowerStr (chars "The")) = false →
      pronouns.contains (toLowerStr (chars "The")) = false →
      prepositions.contains (toLowerStr (chars "The")) = false →
      conjunctions.contains (toLowerStr (chars "The")) = false →
      (chars "ly").isSuffixOf (toLowerStr (chars "The")) = true →
      classifyFallback (chars "The") = chars "ADVERB") ∧
    (articles.contains (toLowerStr (chars "The")) = false →
      determiners.contains (toLowerStr (chars "The")) = false →
      pronouns.contains (toLowerStr (chars "The")) = false →
      prepositions.contains (toLowerStr (chars "The")) = false →
      conjunctions.contains (toLowerStr (chars "The")) = false →
      (chars "ly").isSuffixOf (toLowerStr (chars "The")) = false →
      ((chars "ing").isSuffixOf (toLowerStr (chars "The")) = true ∨
        (chars "ed").isSuffixOf (toLowerStr (chars "The")) = true ∨
        (chars "en").isSuffixOf (toLowerStr (chars "The")) = true) →
      classifyFallback (chars "The") = chars "VERB") ∧
    (articles.contains (toLowerStr (chars "The")) = false →
      determiners.contains (toLowerStr (chars "The")) = false →
      pronouns.contains (toLowerStr (chars "The")) = false →
      prepositions.contains (toLowerStr (chars "The")) = false →
      conjunctions.contains (toLowerStr (chars "The")) = false →
      (chars "ly").isSuffixOf (toLowerStr (chars "The")) = false →
      (chars "ing").isSuffixOf (toLowerStr (chars "The")) = false →
      (chars "ed").isSuffixOf (toLowerStr (chars "The")) = false →
      (chars "en").isSuffixOf (toLowerStr (chars "The")) = false →
      classifyFallback (chars "The") = chars "NOUN")) :=
  ⟨by decide,
    claim8_fallback_classification (chars "x") (chars "Hello") (chars "The") (by decide)⟩
